import Mathlib

/-!
Verification of the Hyperspace coordinator (`Master`) implementation found in
this repository (the Hyperspace portion of `RequestHandlerUpdate.cc`).

The embedding below transcribes the `Master` request handlers — `Open`, `Close`,
`AttrSet`, `AttrGet`, `AttrDel`, `Lock`, `Release` (with `ReleaseLock`,
`LockHandle`, `LockHandleWithNotification`, `DestroyHandle`,
`DeliverEventNotifications`, `DeliverEventNotification`) — and the session
registry (`CreateSession`, `GetSessionData`, `NextExpiredSession`,
`RemoveExpiredSessions`) into pure Lean functions over an explicit state.

Modelling conventions:
* The machine focuses on a single named node (all the lock, attribute and
  handle-teardown logic is per-node in the source); the node's presence in
  `mNodeMap` is the flag `nodeInMap`, and the node's backing file on disk is
  the flag `fileExistsOnDisk`.
* Filesystem calls (`stat`, `open(2)`, xattr reads/writes) act on explicit
  state fields (`fileExistsOnDisk`, `attrs`, `lockGenOnDisk`); a write that can
  fail takes an explicit `persistOk : Bool` argument standing for the result
  of `FileUtils::Fsetxattr`, with `Resp.processAbort` standing for `exit(1)`.
* C++ `std::set` / `std::map` collections are association lists; `std::set`
  ordering is irrelevant to the transcribed code (it only inserts, erases and
  tests emptiness), and both handle maps are populated in increasing handle-id
  order, so insertion order agrees with map order.
* The fields `genLog`, `grantLog`, `nextTag` and `incarnation` are ghost
  instrumentation: they record grant occasions, the identity of queued lock
  requests, and node-record lifetimes, and never influence control flow.
* Constants from headers that are not in the tree (`OPEN_FLAG_*`,
  `LOCK_MODE_*`, `EVENT_MASK_*`) are given their documented bit values; only
  their distinctness matters below.
-/

namespace Hyperspace

/-- `OPEN_FLAG_READ` open flag bit. -/
def OPEN_FLAG_READ : Nat := 1

/-- `OPEN_FLAG_WRITE` open flag bit. -/
def OPEN_FLAG_WRITE : Nat := 2

/-- `OPEN_FLAG_LOCK` open flag bit. -/
def OPEN_FLAG_LOCK : Nat := 4

/-- `OPEN_FLAG_CREATE` open flag bit. -/
def OPEN_FLAG_CREATE : Nat := 8

/-- `OPEN_FLAG_EXCL` open flag bit. -/
def OPEN_FLAG_EXCL : Nat := 16

/-- `OPEN_FLAG_TEMP` open flag bit. -/
def OPEN_FLAG_TEMP : Nat := 32

/-- `LOCK_MODE_SHARED` lock mode constant. -/
def LOCK_MODE_SHARED : Nat := 1

/-- `LOCK_MODE_EXCLUSIVE` lock mode constant. -/
def LOCK_MODE_EXCLUSIVE : Nat := 2

/-- Error codes returned through `cb->error(...)` by the transcribed handlers. -/
inductive ErrCode where
  | expiredSession
  | invalidHandle
  | modeRestriction
  | fileExists
  | badPathname
  | permissionDenied
  | attrNotFound
  | ioError
deriving Repr, DecidableEq

/-- Responses sent through the response callback.  `processAbort` stands for
`exit(1)`: the handler kills the process instead of responding. -/
inductive Resp where
  | ok
  | opened (handle : Nat) (created : Bool)
  | lockBusy
  | lockPending
  | lockGranted (generation : Nat)
  | attrValue (value : String)
  | err (code : ErrCode)
  | processAbort
deriving Repr, DecidableEq

/-- Event kinds (the `Event*` subclasses) with their payloads. -/
inductive EventKind where
  | attrSet (name : String)
  | attrDel (name : String)
  | childNodeAdded (child : String)
  | childNodeRemoved (child : String)
  | lockAcquired (mode : Nat)
  | lockReleased
  | lockGranted (mode generation : Nat)
deriving Repr, DecidableEq

/-- `EVENT_MASK_ATTR_SET` bit. -/
def EVENT_MASK_ATTR_SET : Nat := 1

/-- `EVENT_MASK_ATTR_DEL` bit. -/
def EVENT_MASK_ATTR_DEL : Nat := 2

/-- `EVENT_MASK_CHILD_NODE_ADDED` bit. -/
def EVENT_MASK_CHILD_NODE_ADDED : Nat := 4

/-- `EVENT_MASK_CHILD_NODE_REMOVED` bit. -/
def EVENT_MASK_CHILD_NODE_REMOVED : Nat := 8

/-- `EVENT_MASK_LOCK_ACQUIRED` bit. -/
def EVENT_MASK_LOCK_ACQUIRED : Nat := 16

/-- `EVENT_MASK_LOCK_RELEASED` bit. -/
def EVENT_MASK_LOCK_RELEASED : Nat := 32

/-- `EVENT_MASK_LOCK_GRANTED` bit. -/
def EVENT_MASK_LOCK_GRANTED : Nat := 64

/-- The `GetMask()` accessor of each event class. -/
def eventMaskOf : EventKind → Nat
  | .attrSet _ => EVENT_MASK_ATTR_SET
  | .attrDel _ => EVENT_MASK_ATTR_DEL
  | .childNodeAdded _ => EVENT_MASK_CHILD_NODE_ADDED
  | .childNodeRemoved _ => EVENT_MASK_CHILD_NODE_REMOVED
  | .lockAcquired _ => EVENT_MASK_LOCK_ACQUIRED
  | .lockReleased => EVENT_MASK_LOCK_RELEASED
  | .lockGranted _ _ => EVENT_MASK_LOCK_GRANTED

/-- An emitted event: monotone id plus kind (`mNextEventId` supplies ids). -/
structure EventRec where
  id : Nat
  kind : EventKind
deriving Repr, DecidableEq

/-- `HandleData`: the per-handle record stored in `mHandleMap`. -/
structure HandleData where
  id : Nat
  openFlags : Nat
  eventMask : Nat
  locked : Bool
deriving Repr, DecidableEq

/-- An entry of `NodeData::pendingLockRequests` (`LockRequest(handle, mode)`).
`tag` is ghost instrumentation identifying the request within a run. -/
structure LockRequest where
  handle : Nat
  mode : Nat
  tag : Nat
deriving Repr, DecidableEq

/-- `NodeData`: the per-node record stored in `mNodeMap`.  `fdValid` models
`fd >= 0`. -/
structure NodeData where
  ephemeral : Bool
  fdValid : Bool
  lockGeneration : Nat
  currentLockMode : Nat
  exclusiveLockHandle : Nat
  sharedLockHandles : List Nat
  pendingLockRequests : List LockRequest
  handleMap : List Nat
deriving Repr, DecidableEq

/-- Ghost record of one granted lock: `tag` is the queue tag when the grant
came from draining `pendingLockRequests` (`none` for a direct grant in
`Master::Lock`), `gen` the generation the grantee observes. -/
structure GrantRec where
  tag : Option Nat
  handle : Nat
  gen : Nat
deriving Repr, DecidableEq

/-- The state of the coordinator, restricted to one named node. -/
structure MasterState where
  sessions : List Nat
  handleMap : List (Nat × HandleData)
  nextHandleNumber : Nat
  nextEventId : Nat
  nodeInMap : Bool
  node : NodeData
  fileExistsOnDisk : Bool
  lockGenOnDisk : Option Nat
  attrs : List (String × String)
  events : List EventRec
  notifications : List (Nat × Nat)
  genLog : List (Nat × Nat)
  grantLog : List GrantRec
  nextTag : Nat
  incarnation : Nat
deriving Repr, DecidableEq

/-- Association-list lookup for the handle table (`mHandleMap.find`). -/
def lookupHandle : List (Nat × HandleData) → Nat → Option HandleData
  | [], _ => none
  | (k, v) :: rest, hid => if k = hid then some v else lookupHandle rest hid

/-- Remove the entry with the given key (`mHandleMap.erase(iter)`). -/
def eraseHandle : List (Nat × HandleData) → Nat → List (Nat × HandleData)
  | [], _ => []
  | (k, v) :: rest, hid => if k = hid then rest else (k, v) :: eraseHandle rest hid

/-- Update the `locked` flag of one handle record (`handlePtr->locked = b`;
the node's handle map and the global table share the record in C++). -/
def setHandleLocked (m : List (Nat × HandleData)) (hid : Nat) (b : Bool) :
    List (Nat × HandleData) :=
  m.map fun p => if p.1 = hid then (p.1, { p.2 with locked := b }) else p

/-- `std::set` insert for the shared-holder set. -/
def insertSet (x : Nat) (l : List Nat) : List Nat :=
  if x ∈ l then l else x :: l

/-- Extended-attribute lookup (`Fgetxattr`). -/
def lookupAttr : List (String × String) → String → Option String
  | [], _ => none
  | (k, v) :: rest, n => if k = n then some v else lookupAttr rest n

/-- Extended-attribute write (`Fsetxattr` with replace-or-create). -/
def setAttr : List (String × String) → String → String → List (String × String)
  | [], n, v => [(n, v)]
  | (k, w) :: rest, n, v =>
    if k = n then (k, v) :: rest else (k, w) :: setAttr rest n v

/-- Extended-attribute removal (`Fremovexattr`). -/
def removeAttr : List (String × String) → String → List (String × String)
  | [], _ => []
  | (k, w) :: rest, n => if k = n then rest else (k, w) :: removeAttr rest n

/-- Result of `Master::DeliverEventNotifications`: how often the event's
notification counter was incremented, which handles got a `Notification`
queued on their session (in handle-map order), and whether the call blocked
on `WaitForNotifications`. -/
structure DeliveryResult where
  count : Nat
  notified : List Nat
  waited : Bool
deriving Repr, DecidableEq

/-- The loop body of `Master::DeliverEventNotifications`: walk the node's
handle map; every handle whose `eventMask` intersects the event's mask gets
the counter incremented once and a notification queued. -/
def deliverScan (evMask : Nat) : List (Nat × HandleData) → Nat × List Nat
  | [] => (0, [])
  | (hid, h) :: rest =>
    let (c, l) := deliverScan evMask rest
    if h.eventMask &&& evMask ≠ 0 then (c + 1, hid :: l) else (c, l)

/-- `Master::DeliverEventNotifications(node, eventPtr, waitForNotify)`:
after the scan, the caller waits on the event only when `waitForNotify` is
set and at least one notification went out. -/
def deliverEventNotifications (hm : List (Nat × HandleData)) (evMask : Nat)
    (waitForNotify : Bool) : DeliveryResult :=
  let (c, l) := deliverScan evMask hm
  { count := c, notified := l, waited := waitForNotify && c != 0 }

/-- The node's handle map as (id, record) pairs.  In C++ `NodeData::handleMap`
shares the `HandleData` records with `mHandleMap`; here the node stores ids
and the records live in the global table. -/
def nodeHandles (s : MasterState) : List (Nat × HandleData) :=
  s.node.handleMap.filterMap fun hid =>
    (lookupHandle s.handleMap hid).map fun h => (hid, h)

/-- Create an event (with the next `mNextEventId`) and fan it out over the
node's handle map (`waitForNotify` is passed as `false`: the acknowledgement
barrier is a blocking construct outside this embedding). -/
def emitEvent (s : MasterState) (k : EventKind) : MasterState :=
  let ev : EventRec := { id := s.nextEventId, kind := k }
  let d := deliverEventNotifications (nodeHandles s) (eventMaskOf k) false
  { s with
    nextEventId := s.nextEventId + 1
    events := s.events ++ [ev]
    notifications := s.notifications ++ d.notified.map fun hid => (hid, ev.id) }

/-- `pendingLockRequests.push_back(LockRequest(handle, mode))`; the ghost tag
is drawn from `nextTag`. -/
def enqueuePending (s : MasterState) (hid mode : Nat) : MasterState :=
  { s with
    node := { s.node with
      pendingLockRequests :=
        s.node.pendingLockRequests ++ [{ handle := hid, mode := mode, tag := s.nextTag }] }
    nextTag := s.nextTag + 1 }

/-- The grant tail of `Master::Lock` (source lines 1071–1090): bump and
persist `lockGeneration` (`Fsetxattr` failure is `exit(1)`), set the mode,
`LockHandle`, emit `LOCK_ACQUIRED` unless joining an already-shared set, and
respond `LOCK_STATUS_GRANTED` with the new generation. -/
def lockGrant (persistOk : Bool) (s : MasterState) (hid mode : Nat) : MasterState × Resp :=
  let notify := ¬(mode = LOCK_MODE_SHARED ∧ s.node.sharedLockHandles ≠ [])
  if persistOk then
    let gen := s.node.lockGeneration + 1
    let s1 : MasterState :=
      { s with
        node := { s.node with
          lockGeneration := gen
          currentLockMode := mode
          sharedLockHandles :=
            if mode = LOCK_MODE_SHARED then insertSet hid s.node.sharedLockHandles
            else s.node.sharedLockHandles
          exclusiveLockHandle :=
            if mode = LOCK_MODE_SHARED then s.node.exclusiveLockHandle else hid }
        lockGenOnDisk := some gen
        handleMap := setHandleLocked s.handleMap hid true
        genLog := s.genLog ++ [(s.incarnation, gen)]
        grantLog := s.grantLog ++ [{ tag := none, handle := hid, gen := gen }] }
    let s2 := if notify then emitEvent s1 (.lockAcquired mode) else s1
    (s2, .lockGranted gen)
  else (s, .processAbort)

/-- `Master::Lock` (source lines 1007–1092). A missing handle is answered with
`HYPERSPACE_EXPIRED_SESSION` exactly as in the source (line 1023). -/
def lockOp (persistOk : Bool) (s : MasterState) (sessionId hid mode : Nat)
    (tryAcquire : Bool) : MasterState × Resp :=
  if sessionId ∈ s.sessions then
    match lookupHandle s.handleMap hid with
    | none => (s, .err .expiredSession)
    | some h =>
      if h.openFlags &&& OPEN_FLAG_LOCK = 0 then (s, .err .modeRestriction)
      else if h.openFlags &&& OPEN_FLAG_WRITE = 0 then (s, .err .modeRestriction)
      else if s.node.currentLockMode = LOCK_MODE_EXCLUSIVE then
        if tryAcquire then (s, .lockBusy)
        else (enqueuePending s hid mode, .lockPending)
      else if s.node.currentLockMode = LOCK_MODE_SHARED then
        if mode = LOCK_MODE_EXCLUSIVE then
          if tryAcquire then (s, .lockBusy)
          else (enqueuePending s hid mode, .lockPending)
        else if s.node.pendingLockRequests ≠ [] then
          (enqueuePending s hid mode, .lockPending)
        else lockGrant persistOk s hid mode
      else lockGrant persistOk s hid mode
  else (s, .err .expiredSession)

/-- The shared-run collection loop in `Master::ReleaseLock` (lines 1190–1197):
pop from the front while the head is a shared request, keeping those whose
handle is still in the handle table; stop at the first non-shared request. -/
def collectPendingShared (live : Nat → Bool) :
    List LockRequest → List LockRequest × List LockRequest
  | [] => ([], [])
  | r :: rest =>
    if r.mode ≠ LOCK_MODE_SHARED then ([], r :: rest)
    else
      let (c, rem) := collectPendingShared live rest
      (if live r.handle then r :: c else c, rem)

/-- The queue-processing head of `Master::ReleaseLock` (lines 1179–1198):
given the nonempty pending queue, produce the next mode, the requests to
grant (`nextLockHandles`, minus those whose handle has vanished) and the
remaining queue. -/
def drainPending (live : Nat → Bool) (p : List LockRequest) :
    Nat × List LockRequest × List LockRequest :=
  match p with
  | [] => (0, [], [])
  | front :: rest =>
    if front.mode = LOCK_MODE_EXCLUSIVE then
      (LOCK_MODE_EXCLUSIVE, if live front.handle then [front] else [], rest)
    else
      let (c, rem) := collectPendingShared live (front :: rest)
      (LOCK_MODE_SHARED, c, rem)

/-- `Master::LockHandleWithNotification`: `LockHandle` plus a targeted
`LOCK_GRANTED` event delivered only to the granted handle's session
(`DeliverEventNotification`, singular: no mask filtering). -/
def lockHandleWithNotification (s : MasterState) (r : LockRequest) (mode : Nat) :
    MasterState :=
  let s1 : MasterState :=
    { s with
      node := { s.node with
        sharedLockHandles :=
          if mode = LOCK_MODE_SHARED then insertSet r.handle s.node.sharedLockHandles
          else s.node.sharedLockHandles
        exclusiveLockHandle :=
          if mode = LOCK_MODE_SHARED then s.node.exclusiveLockHandle else r.handle }
      handleMap := setHandleLocked s.handleMap r.handle true }
  let ev : EventRec := { id := s1.nextEventId, kind := .lockGranted mode s1.node.lockGeneration }
  { s1 with
    nextEventId := s1.nextEventId + 1
    events := s1.events ++ [ev]
    notifications := s1.notifications ++ [(r.handle, ev.id)]
    grantLog := s1.grantLog ++
      [{ tag := some r.tag, handle := r.handle, gen := s1.node.lockGeneration }] }

/-- The holder-removal head of `Master::ReleaseLock` (source lines
1157–1177): clear the exclusive holder or erase the shared holder, clear the
handle's `locked` flag, emit `LOCK_RELEASED` when the shared set is empty
(lines 1171–1175), and set `currentLockMode = 0` — unconditionally, line
1177. -/
def releaseHolder (s0 : MasterState) (hid : Nat) : MasterState :=
  let s1 : MasterState :=
    if s0.node.exclusiveLockHandle ≠ 0 then
      { s0 with node := { s0.node with exclusiveLockHandle := 0 } }
    else
      { s0 with node := { s0.node with
          sharedLockHandles := s0.node.sharedLockHandles.erase hid } }
  let s2 : MasterState := { s1 with handleMap := setHandleLocked s1.handleMap hid false }
  let s3 := if s2.node.sharedLockHandles = [] then emitEvent s2 .lockReleased else s2
  { s3 with node := { s3.node with currentLockMode := 0 } }

/-- The queue-processing tail of `Master::ReleaseLock` (source lines
1179–1224): dequeue the next batch, and if any dequeued handle is still
live, bump and persist `lock.generation` (`exit(1)` on failure — the `Bool`
result), set the new mode, `LockHandleWithNotification` each grantee, and
emit one `LOCK_ACQUIRED` to the node. -/
def processPendingQueue (persistOk : Bool) (s4 : MasterState) : MasterState × Bool :=
  if s4.node.pendingLockRequests = [] then (s4, false)
  else
    let d := drainPending (fun x => (lookupHandle s4.handleMap x).isSome)
      s4.node.pendingLockRequests
    let nextMode := d.1
    let nextLockHandles := d.2.1
    let s5 : MasterState := { s4 with node := { s4.node with pendingLockRequests := d.2.2 } }
    if nextLockHandles = [] then (s5, false)
    else if persistOk then
      let gen := s5.node.lockGeneration + 1
      let s6 : MasterState :=
        { s5 with
          node := { s5.node with lockGeneration := gen, currentLockMode := nextMode }
          lockGenOnDisk := some gen
          genLog := s5.genLog ++ [(s5.incarnation, gen)] }
      let s7 := nextLockHandles.foldl (fun acc r => lockHandleWithNotification acc r nextMode) s6
      (emitEvent s7 (.lockAcquired nextMode), false)
    else (s5, true)

/-- `Master::ReleaseLock` (source lines 1152–1226): a handle that is not
marked locked is a no-op (lines 1168–1169); otherwise remove the holder and
process the pending queue. -/
def releaseLockCore (persistOk : Bool) (s0 : MasterState) (hid : Nat)
    (h : HandleData) : MasterState × Bool :=
  if h.locked then processPendingQueue persistOk (releaseHolder s0 hid)
  else (s0, false)

/-- `Master::Release` (source lines 1127–1149).  A missing handle is answered
with `HYPERSPACE_EXPIRED_SESSION` exactly as in the source (line 1141). -/
def releaseOp (persistOk : Bool) (s : MasterState) (sessionId hid : Nat) :
    MasterState × Resp :=
  if sessionId ∈ s.sessions then
    match lookupHandle s.handleMap hid with
    | none => (s, .err .expiredSession)
    | some h =>
      let r := releaseLockCore persistOk s hid h
      if r.2 then (r.1, .processAbort) else (r.1, .ok)
  else (s, .err .expiredSession)

/-- `Master::Close` (source lines 832–859) plus `Master::DestroyHandle`
(lines 1331–1361): remove the handle from the global table (a missing handle
is `HYPERSPACE_INVALID_HANDLE`, line 847), remove it from the node's handle
map, and when the node's reference count reaches zero close the backing
descriptor and, for an ephemeral node, drop the node record
(`NodeData::Close` is assumed to succeed on the valid descriptor;
`FindParentNode` finds nothing in this single-node model, so no
`CHILD_NODE_REMOVED` is emitted).  Note that `DestroyHandle` does not release
any lock the handle holds (the source marks this `TODO: Destory locks`). -/
def closeOp (s : MasterState) (sessionId hid : Nat) : MasterState × Resp :=
  if sessionId ∈ s.sessions then
    match lookupHandle s.handleMap hid with
    | none => (s, .err .invalidHandle)
    | some _ =>
      let s1 : MasterState :=
        { s with
          handleMap := eraseHandle s.handleMap hid
          node := { s.node with handleMap := s.node.handleMap.erase hid } }
      if s1.node.handleMap.length = 0 then
        let s2 : MasterState := { s1 with node := { s1.node with fdValid := false } }
        if s2.node.ephemeral then ({ s2 with nodeInMap := false }, .ok)
        else (s2, .ok)
      else (s1, .ok)
  else (s, .err .expiredSession)

/-- `Master::AttrSet` (source lines 866–900).  A missing handle is answered
with `HYPERSPACE_EXPIRED_SESSION` (line 881); a failing `Fsetxattr` is
`exit(1)` (line 888), i.e. `processAbort`, not an error response. -/
def attrSetOp (fsetxattrOk : Bool) (s : MasterState) (sessionId hid : Nat)
    (name value : String) : MasterState × Resp :=
  if sessionId ∈ s.sessions then
    match lookupHandle s.handleMap hid with
    | none => (s, .err .expiredSession)
    | some _ =>
      if fsetxattrOk then
        let s1 : MasterState := { s with attrs := setAttr s.attrs name value }
        (emitEvent s1 (.attrSet name), .ok)
      else (s, .processAbort)
  else (s, .err .expiredSession)

/-- `Master::AttrGet` (source lines 906–947).  A missing handle is answered
with `HYPERSPACE_EXPIRED_SESSION` (line 923); a missing attribute makes
`Fgetxattr` fail with `ENOATTR`, which `ReportError` maps to
`HYPERSPACE_ATTR_NOT_FOUND`. -/
def attrGetOp (s : MasterState) (sessionId hid : Nat) (name : String) :
    MasterState × Resp :=
  if sessionId ∈ s.sessions then
    match lookupHandle s.handleMap hid with
    | none => (s, .err .expiredSession)
    | some _ =>
      match lookupAttr s.attrs name with
      | none => (s, .err .attrNotFound)
      | some v => (s, .attrValue v)
  else (s, .err .expiredSession)

/-- `Master::AttrDel` (source lines 951–986).  A missing handle is answered
with `HYPERSPACE_EXPIRED_SESSION` (line 966); a missing attribute makes
`Fremovexattr` fail with `ENOATTR`, mapped by `ReportError` to
`HYPERSPACE_ATTR_NOT_FOUND`; on success an `ATTR_DEL` event is emitted. -/
def attrDelOp (s : MasterState) (sessionId hid : Nat) (name : String) :
    MasterState × Resp :=
  if sessionId ∈ s.sessions then
    match lookupHandle s.handleMap hid with
    | none => (s, .err .expiredSession)
    | some _ =>
      match lookupAttr s.attrs name with
      | none => (s, .err .attrNotFound)
      | some _ =>
        let s1 : MasterState := { s with attrs := removeAttr s.attrs name }
        (emitEvent s1 (.attrDel name), .ok)
  else (s, .err .expiredSession)

/-- The tail of `Master::Open` (source lines 806–828): `CreateHandle` hands
out `++mNextHandleNumber`, the handle is recorded in the global table and the
node's handle map, and `(handle, created)` is the response.  The session's
handle set (`sessionPtr->AddHandle`) lives in the session registry model, and
`FindParentNode` finds nothing in this single-node model, so the
`CHILD_NODE_ADDED` notification to the parent is not reached. -/
def finishOpen (s : MasterState) (flags eventMask : Nat) (created : Bool) :
    MasterState × Resp :=
  let hid := s.nextHandleNumber + 1
  let h : HandleData := { id := hid, openFlags := flags, eventMask := eventMask, locked := false }
  let s1 : MasterState :=
    { s with
      nextHandleNumber := hid
      handleMap := s.handleMap ++ [(hid, h)]
      node := { s.node with handleMap := s.node.handleMap ++ [hid] } }
  (s1, .opened hid created)

/-- `Master::Open` (source lines 696–829) for the single modelled node.
`stat` reads `fileExistsOnDisk` (an error other than `ENOENT` is not
modelled); `open(2)` fails with `ENOENT` (→ `BAD_PATHNAME`) without `O_CREAT`
on a missing file and with `EEXIST` (→ `FILE_EXISTS`) under
`O_CREAT|O_EXCL` on an existing one, and otherwise succeeds, creating the
file if needed.  A fresh file has no extended attributes, so `lock.generation`
is initialised to 1 in the new-`NodeData` branch (its `Fsetxattr` is assumed
to succeed); a `TEMP` node is unlinked at once and marked ephemeral. -/
def openOp (s : MasterState) (sessionId flags eventMask : Nat) : MasterState × Resp :=
  if sessionId ∈ s.sessions then
    if s.nodeInMap ∧ flags &&& OPEN_FLAG_CREATE ≠ 0 ∧ flags &&& OPEN_FLAG_EXCL ≠ 0 then
      (s, .err .fileExists)
    else
      let existed := s.fileExistsOnDisk
      if ¬s.nodeInMap ∨ ¬s.node.fdValid then
        if s.nodeInMap ∧ flags &&& OPEN_FLAG_TEMP ≠ 0 ∧ existed ∧ ¬s.node.ephemeral then
          (s, .err .fileExists)
        else if ¬existed ∧ flags &&& OPEN_FLAG_CREATE = 0 then
          (s, .err .badPathname)
        else if existed ∧ flags &&& OPEN_FLAG_CREATE ≠ 0 ∧ flags &&& OPEN_FLAG_EXCL ≠ 0 then
          (s, .err .fileExists)
        else
          let attrsNow := if existed then s.attrs else []
          let diskGenNow := if existed then s.lockGenOnDisk else none
          if s.nodeInMap then
            finishOpen
              { s with
                fileExistsOnDisk := true
                attrs := attrsNow
                lockGenOnDisk := diskGenNow
                node := { s.node with fdValid := true } }
              flags eventMask (!existed)
          else
            let memGen := match diskGenNow with | some g => g | none => 1
            let eph := flags &&& OPEN_FLAG_TEMP != 0
            finishOpen
              { s with
                nodeInMap := true
                fileExistsOnDisk := if eph then false else true
                attrs := attrsNow
                lockGenOnDisk := some memGen
                node := { ephemeral := eph, fdValid := true, lockGeneration := memGen,
                          currentLockMode := 0, exclusiveLockHandle := 0,
                          sharedLockHandles := [], pendingLockRequests := [],
                          handleMap := [] }
                incarnation := s.incarnation + 1 }
              flags eventMask (!existed)
      else
        finishOpen s flags eventMask false
  else (s, .err .expiredSession)

/-- One client request, as dispatched to the transcribed handlers. -/
inductive Op where
  | openNode (sessionId flags eventMask : Nat)
  | close (sessionId handle : Nat)
  | lock (sessionId handle mode : Nat) (tryAcquire : Bool)
  | release (sessionId handle : Nat)
  | attrSet (sessionId handle : Nat) (name value : String)
  | attrGet (sessionId handle : Nat) (name : String)
  | attrDel (sessionId handle : Nat) (name : String)
deriving Repr, DecidableEq

/-- Apply one request (xattr persistence succeeding, as on a healthy disk). -/
def step (s : MasterState) : Op → MasterState
  | .openNode sid f m => (openOp s sid f m).1
  | .close sid h => (closeOp s sid h).1
  | .lock sid h m t => (lockOp true s sid h m t).1
  | .release sid h => (releaseOp true s sid h).1
  | .attrSet sid h n v => (attrSetOp true s sid h n v).1
  | .attrGet sid h n => (attrGetOp s sid h n).1
  | .attrDel sid h n => (attrDelOp s sid h n).1

/-- Apply a sequence of requests. -/
def run (s : MasterState) : List Op → MasterState
  | [] => s
  | op :: ops => run (step s op) ops

/-- Startup state: established sessions, no handles, no node record yet;
`diskFile` and `diskGen` describe the backing file left by earlier runs. -/
def initState (sessions : List Nat) (diskFile : Bool) (diskGen : Option Nat) :
    MasterState :=
  { sessions := sessions
    handleMap := []
    nextHandleNumber := 1
    nextEventId := 1
    nodeInMap := false
    node := { ephemeral := false, fdValid := false, lockGeneration := 1,
              currentLockMode := 0, exclusiveLockHandle := 0, sharedLockHandles := [],
              pendingLockRequests := [], handleMap := [] }
    fileExistsOnDisk := diskFile
    lockGenOnDisk := diskGen
    attrs := []
    events := []
    notifications := []
    genLog := []
    grantLog := []
    nextTag := 0
    incarnation := 0 }

/-- The per-session record held in `mSessionMap` (`SessionDataPtr`).  Only
the pieces the transcribed registry code touches are kept: the id, the
expired flag and the owned handle ids (lease deadlines are abstracted into
the expiry predicate passed to the expiry loop). -/
structure SessionData where
  id : Nat
  expired : Bool
  handles : List Nat
deriving Repr, DecidableEq

/-- The session registry: `mSessionMap`, `mSessionHeap`, `mNextSessionId`. -/
structure SessionRegistry where
  sessionMap : List (Nat × SessionData)
  sessionHeap : List Nat
  nextSessionId : Nat
deriving Repr, DecidableEq

/-- `mSessionMap.find(sessionId)`. -/
def lookupSession : List (Nat × SessionData) → Nat → Option SessionData
  | [], _ => none
  | (k, v) :: rest, sid => if k = sid then some v else lookupSession rest sid

/-- `Master::CreateSession` (source lines 490–498): allocate
`mNextSessionId++`, insert the record into both the map and the heap. -/
def createSession (r : SessionRegistry) : SessionRegistry × Nat :=
  let sid := r.nextSessionId
  ({ sessionMap := r.sessionMap ++ [(sid, { id := sid, expired := false, handles := [] })]
     sessionHeap := r.sessionHeap ++ [sid]
     nextSessionId := sid + 1 }, sid)

/-- `Master::GetSessionData` (source lines 501–508): a map lookup and nothing
else — this is the session-lookup step of every request handler. -/
def getSessionData (r : SessionRegistry) (sid : Nat) : Bool :=
  (lookupSession r.sessionMap sid).isSome

/-- `Master::NextExpiredSession` (source lines 525–542): re-heapify
`mSessionHeap` by deadline and pop the top when it is expired.  Deadlines are
abstracted into `isExpired`; the minimum-deadline session is expired exactly
when some session is, so the model pops the first expired entry.  Only the
heap is touched; `mSessionMap` is not. -/
def nextExpiredSession (isExpired : Nat → Bool) (r : SessionRegistry) :
    Option (SessionRegistry × Nat) :=
  match r.sessionHeap.find? isExpired with
  | none => none
  | some sid => some ({ r with sessionHeap := r.sessionHeap.erase sid }, sid)

/-- Modelled from the spec: `SessionData::Expire` (class not in the tree)
marks the session expired "so outstanding responses can short-circuit";
`Master::RemoveExpiredSessions` then destroys every handle the session owns.
Neither step erases the entry from `mSessionMap`. -/
def markExpired : List (Nat × SessionData) → Nat → List (Nat × SessionData)
  | [], _ => []
  | (k, v) :: rest, sid =>
    if k = sid then (k, { v with expired := true, handles := [] }) :: rest
    else (k, v) :: markExpired rest sid

/-- Loop body of `Master::RemoveExpiredSessions` (source lines 544–570),
with the heap length as fuel (each iteration removes one heap entry). -/
def removeExpiredSessionsAux (isExpired : Nat → Bool) :
    Nat → SessionRegistry → SessionRegistry
  | 0, r => r
  | fuel + 1, r =>
    match nextExpiredSession isExpired r with
    | none => r
    | some (r1, sid) =>
      removeExpiredSessionsAux isExpired fuel
        { r1 with sessionMap := markExpired r1.sessionMap sid }

/-- `Master::RemoveExpiredSessions`: drain the expired prefix of the heap. -/
def removeExpiredSessions (isExpired : Nat → Bool) (r : SessionRegistry) :
    SessionRegistry :=
  removeExpiredSessionsAux isExpired r.sessionHeap.length r

/-- `Master::RenewSessionLease` (source lines 511–523): an unknown session id
yields `HYPERSPACE_EXPIRED_SESSION`, as does `RenewLease` on an expired
session (`SessionData::RenewLease`, modelled from the spec: renewal of an
expired session fails).  The map itself is unchanged. -/
def renewSessionLease (r : SessionRegistry) (sid : Nat) : Bool :=
  match lookupSession r.sessionMap sid with
  | none => false
  | some sd => !sd.expired

/-- Session-registry requests. -/
inductive RegOp where
  | create
  | renew (sid : Nat)
  | expire (isExpired : Nat → Bool)

/-- Apply one registry request. -/
def regStep (r : SessionRegistry) : RegOp → SessionRegistry
  | .create => (createSession r).1
  | .renew _ => r
  | .expire p => removeExpiredSessions p r

/-- Apply a sequence of registry requests. -/
def regRun (r : SessionRegistry) : List RegOp → SessionRegistry
  | [] => r
  | op :: ops => regRun (regStep r op) ops

/-- Ghost tags of the queued lock requests, in queue order. -/
def pendingTags (s : MasterState) : List Nat :=
  s.node.pendingLockRequests.map (·.tag)

/-- Ghost tags of the grants that came from the pending queue, in grant
order (direct grants in `Master::Lock` carry no tag). -/
def grantTags (s : MasterState) : List Nat :=
  s.grantLog.filterMap (·.tag)

/-- How one request may change the generation instrumentation: either no
grant occasion happened (log, generation and incarnation unchanged); or
exactly one grant occasion happened, incrementing `lockGeneration` by exactly
one, logging it and persisting it; or a fresh node record was created (a new
incarnation), with no grant occasion. -/
def GenShape (s s' : MasterState) : Prop :=
  (s'.genLog = s.genLog ∧ s'.node.lockGeneration = s.node.lockGeneration ∧
   s'.incarnation = s.incarnation) ∨
  (s'.genLog = s.genLog ++ [(s.incarnation, s.node.lockGeneration + 1)] ∧
   s'.node.lockGeneration = s.node.lockGeneration + 1 ∧
   s'.incarnation = s.incarnation ∧
   s'.lockGenOnDisk = some (s.node.lockGeneration + 1)) ∨
  (s'.genLog = s.genLog ∧ s'.incarnation = s.incarnation + 1)

/-- How one request may change the queue instrumentation: either some prefix
of the queue is dequeued and a subsequence of that prefix (the requests whose
handles are still live) is granted, in order; or one request is appended at
the back with the next fresh tag; or the node record is replaced and the
queue starts empty. -/
def TagShape (s s' : MasterState) : Prop :=
  (s'.nextTag = s.nextTag ∧
   ∃ k ap, ap.Sublist ((pendingTags s).take k) ∧
     pendingTags s' = (pendingTags s).drop k ∧
     grantTags s' = grantTags s ++ ap) ∨
  (s'.nextTag = s.nextTag + 1 ∧
   pendingTags s' = pendingTags s ++ [s.nextTag] ∧
   grantTags s' = grantTags s) ∨
  (s'.nextTag = s.nextTag ∧ pendingTags s' = [] ∧ grantTags s' = grantTags s)

/-- Combined per-request effect on the ghost instrumentation. -/
def StepShape (s s' : MasterState) : Prop :=
  GenShape s s' ∧ TagShape s s'

/-- The generations logged for one node incarnation. -/
def genSeqL (log : List (Nat × Nat)) (i : Nat) : List Nat :=
  (log.filter fun e => e.1 == i).map (·.2)

/-- Invariant carrying the generation-monotonicity argument: the logged
generations of every incarnation are strictly increasing, and every logged
entry is bounded by the current incarnation and generation. -/
def genInv (s : MasterState) : Prop :=
  (∀ i, List.Sorted (· < ·) (genSeqL s.genLog i)) ∧
  ∀ e ∈ s.genLog, e.1 ≤ s.incarnation ∧ (e.1 = s.incarnation → e.2 ≤ s.node.lockGeneration)

/-- Invariant carrying the FIFO argument: queue tags are strictly increasing,
granted tags are strictly increasing, every granted tag precedes every queued
tag, and all tags are below the fresh-tag counter. -/
def tagInv (s : MasterState) : Prop :=
  List.Sorted (· < ·) (pendingTags s) ∧
  List.Sorted (· < ·) (grantTags s) ∧
  (∀ g ∈ grantTags s, ∀ q ∈ pendingTags s, g < q) ∧
  (∀ q ∈ pendingTags s, q < s.nextTag) ∧
  (∀ g ∈ grantTags s, g < s.nextTag)

/-- Projections of `emitEvent`: it only touches the event id counter, the
event log and the notification queue. -/
lemma emitEvent_node (s : MasterState) (k : EventKind) :
    (emitEvent s k).node = s.node := rfl

/-- `emitEvent` keeps the persisted generation. -/
lemma emitEvent_lockGenOnDisk (s : MasterState) (k : EventKind) :
    (emitEvent s k).lockGenOnDisk = s.lockGenOnDisk := rfl

/-- A conditional `emitEvent` keeps the node record. -/
lemma ite_emitEvent_node (c : Prop) [Decidable c] (s : MasterState) (k : EventKind) :
    (if c then emitEvent s k else s).node = s.node := by
  split <;> rfl

/-- A conditional `emitEvent` keeps the persisted generation. -/
lemma ite_emitEvent_lockGenOnDisk (c : Prop) [Decidable c] (s : MasterState)
    (k : EventKind) :
    (if c then emitEvent s k else s).lockGenOnDisk = s.lockGenOnDisk := by
  split <;> rfl

/-- A conditional `emitEvent` keeps the grant-occasion log. -/
lemma ite_emitEvent_genLog (c : Prop) [Decidable c] (s : MasterState) (k : EventKind) :
    (if c then emitEvent s k else s).genLog = s.genLog := by
  split <;> rfl

/-- A conditional `emitEvent` keeps the grant log. -/
lemma ite_emitEvent_grantLog (c : Prop) [Decidable c] (s : MasterState) (k : EventKind) :
    (if c then emitEvent s k else s).grantLog = s.grantLog := by
  split <;> rfl

/-- A conditional `emitEvent` keeps the tag counter. -/
lemma ite_emitEvent_nextTag (c : Prop) [Decidable c] (s : MasterState) (k : EventKind) :
    (if c then emitEvent s k else s).nextTag = s.nextTag := by
  split <;> rfl

/-- A conditional `emitEvent` keeps the incarnation counter. -/
lemma ite_emitEvent_incarnation (c : Prop) [Decidable c] (s : MasterState)
    (k : EventKind) :
    (if c then emitEvent s k else s).incarnation = s.incarnation := by
  split <;> rfl

/-- A successful direct grant responds `GRANTED` with the new generation. -/
lemma lockGrant_resp (s : MasterState) (hid mode : Nat) :
    (lockGrant true s hid mode).2 = .lockGranted (s.node.lockGeneration + 1) := by
  unfold lockGrant
  simp

/-- A successful direct grant bumps `lockGeneration` by exactly one. -/
lemma lockGrant_gen (s : MasterState) (hid mode : Nat) :
    (lockGrant true s hid mode).1.node.lockGeneration = s.node.lockGeneration + 1 := by
  unfold lockGrant
  simp [ite_emitEvent_node]

/-- A successful direct grant persists the new generation. -/
lemma lockGrant_disk (s : MasterState) (hid mode : Nat) :
    (lockGrant true s hid mode).1.lockGenOnDisk = some (s.node.lockGeneration + 1) := by
  unfold lockGrant
  simp [ite_emitEvent_lockGenOnDisk]

/-- C1: the claimed invariant — never `current_mode == exclusive` with a
nonempty shared-holder set — is violated on a reachable state.  Three handles
(ids 2, 3, 4) are opened with LOCK|WRITE on the node; 2 and 3 acquire the
shared lock; 4 enqueues an exclusive request; then 2 releases.  Because
`Master::ReleaseLock` clears `currentLockMode` and drains the pending queue
even though holder 3 remains (source lines 1177–1224), handle 4 is granted
the exclusive lock while 3 still holds the shared lock. -/
theorem c1_exclusive_grant_while_shared_holder_remains :
    (run (initState [1] true (some 1))
      [.openNode 1 6 0, .openNode 1 6 0, .openNode 1 6 0,
       .lock 1 2 1 false, .lock 1 3 1 false, .lock 1 4 2 false,
       .release 1 2]).node.currentLockMode = LOCK_MODE_EXCLUSIVE ∧
    (run (initState [1] true (some 1))
      [.openNode 1 6 0, .openNode 1 6 0, .openNode 1 6 0,
       .lock 1 2 1 false, .lock 1 3 1 false, .lock 1 4 2 false,
       .release 1 2]).node.sharedLockHandles = [3] ∧
    (run (initState [1] true (some 1))
      [.openNode 1 6 0, .openNode 1 6 0, .openNode 1 6 0,
       .lock 1 2 1 false, .lock 1 3 1 false, .lock 1 4 2 false,
       .release 1 2]).node.exclusiveLockHandle = 4 := by
  refine ⟨?_, ?_, ?_⟩ <;> decide

/-- C2: the claim that a release leaving another holder keeps the node's mode
unchanged and grants nothing is violated.  After the first six requests the
node is in shared mode with holders {3, 2} and one pending exclusive request
(handle 4); releasing handle 2 leaves holder 3 in place, yet the code sets
the mode to exclusive and grants the pending request (one more grant-log
entry), because `Master::ReleaseLock` runs lines 1177–1224 unconditionally. -/
theorem c2_release_with_remaining_holder_still_drains :
    (run (initState [1] true (some 1))
      [.openNode 1 6 0, .openNode 1 6 0, .openNode 1 6 0,
       .lock 1 2 1 false, .lock 1 3 1 false,
       .lock 1 4 2 false]).node.currentLockMode = LOCK_MODE_SHARED ∧
    (run (initState [1] true (some 1))
      [.openNode 1 6 0, .openNode 1 6 0, .openNode 1 6 0,
       .lock 1 2 1 false, .lock 1 3 1 false,
       .lock 1 4 2 false]).node.sharedLockHandles = [3, 2] ∧
    (run (initState [1] true (some 1))
      [.openNode 1 6 0, .openNode 1 6 0, .openNode 1 6 0,
       .lock 1 2 1 false, .lock 1 3 1 false,
       .lock 1 4 2 false]).grantLog.length = 2 ∧
    (run (initState [1] true (some 1))
      [.openNode 1 6 0, .openNode 1 6 0, .openNode 1 6 0,
       .lock 1 2 1 false, .lock 1 3 1 false, .lock 1 4 2 false,
       .release 1 2]).node.currentLockMode = LOCK_MODE_EXCLUSIVE ∧
    (run (initState [1] true (some 1))
      [.openNode 1 6 0, .openNode 1 6 0, .openNode 1 6 0,
       .lock 1 2 1 false, .lock 1 3 1 false, .lock 1 4 2 false,
       .release 1 2]).node.sharedLockHandles = [3] ∧
    (run (initState [1] true (some 1))
      [.openNode 1 6 0, .openNode 1 6 0, .openNode 1 6 0,
       .lock 1 2 1 false, .lock 1 3 1 false, .lock 1 4 2 false,
       .release 1 2]).grantLog.length = 3 := by
  refine ⟨?_, ?_, ?_, ?_, ?_, ?_⟩ <;> decide

/-- C4 (counterexample): strict FIFO granting fails when a queued request's
handle is closed while it waits.  Handle 2 holds the exclusive lock; handle 3
enqueues a shared request (ghost tag 0), then handle 4 enqueues a shared
request (tag 1); handle 3 is closed; handle 2 releases.  The drain pops both
requests, discards tag 0 (its handle is gone from the handle table,
`GetHandleData` fails at source line 1194) and grants tag 1 — so the
later-enqueued request is granted although the earlier one never is (the
queue is empty afterwards). -/
theorem c4_fifo_counterexample :
    pendingTags (run (initState [1] true (some 1))
      [.openNode 1 6 0, .openNode 1 6 0, .openNode 1 6 0,
       .lock 1 2 2 false, .lock 1 3 1 false, .lock 1 4 1 false]) = [0, 1] ∧
    grantTags (run (initState [1] true (some 1))
      [.openNode 1 6 0, .openNode 1 6 0, .openNode 1 6 0,
       .lock 1 2 2 false, .lock 1 3 1 false, .lock 1 4 1 false,
       .close 1 3, .release 1 2]) = [1] ∧
    pendingTags (run (initState [1] true (some 1))
      [.openNode 1 6 0, .openNode 1 6 0, .openNode 1 6 0,
       .lock 1 2 2 false, .lock 1 3 1 false, .lock 1 4 1 false,
       .close 1 3, .release 1 2]) = [] := by
  refine ⟨?_, ?_, ?_⟩ <;> decide

/-- C6 (counterexample): a non-TEMP `open` of an existing ephemeral (TEMP)
node does not fail with `FILE_EXISTS` — it succeeds and binds a new handle.
The first request creates `TEMP` node (flags CREATE|TEMP|LOCK|WRITE = 46,
handle 2, record ephemeral and live); the follow-up `open` with flags READ = 1
returns a fresh handle (id 3) bound to the ephemeral node, because the
existing-record fast path of `Master::Open` (line 756 tests false) never
checks the TEMP mismatch. -/
theorem c6_nontemp_open_of_ephemeral_node_succeeds :
    (run (initState [1] false none) [.openNode 1 46 0]).nodeInMap = true ∧
    (run (initState [1] false none) [.openNode 1 46 0]).node.ephemeral = true ∧
    (run (initState [1] false none) [.openNode 1 46 0]).node.fdValid = true ∧
    (openOp (run (initState [1] false none) [.openNode 1 46 0]) 1 1 0).2
      = .opened 3 false ∧
    (openOp (run (initState [1] false none) [.openNode 1 46 0]) 1 1 0).2
      ≠ .err .fileExists := by
  refine ⟨?_, ?_, ?_, ?_, ?_⟩ <;> decide

/-- C7 (counterexample): `Master::Lock` with a handle id absent from the
handle table responds `HYPERSPACE_EXPIRED_SESSION` (source line 1023), not
`HYPERSPACE_INVALID_HANDLE` as the claim states for all handle-taking
operations. -/
theorem c7_lock_absent_handle_not_invalid_handle :
    (lockOp true (initState [1] true (some 1)) 1 5 1 false).2
      = .err .expiredSession ∧
    (lockOp true (initState [1] true (some 1)) 1 5 1 false).2
      ≠ .err .invalidHandle := by
  exact ⟨by decide, by decide⟩

/-- C8: when `Fsetxattr` fails inside `Master::AttrSet`, the handler calls
`exit(1)` (source line 888) — the process aborts instead of answering with an
errno-mapped error code.  For contrast, the sibling `Master::AttrDel` maps
its xattr failure through `ReportError` to `ATTR_NOT_FOUND`. -/
theorem c8_attrset_failure_aborts_process :
    (attrSetOp false (run (initState [1] true (some 1)) [.openNode 1 6 0])
      1 2 "k" "v").2 = .processAbort ∧
    (attrDelOp (run (initState [1] true (some 1)) [.openNode 1 6 0])
      1 2 "missing").2 = .err .attrNotFound := by
  exact ⟨by decide, by decide⟩

/-- C3: `Master::Lock` on a handle opened with LOCK and WRITE flags follows
the claimed decision table.  (i) Current mode exclusive, or shared with an
exclusive request: `BUSY` under `try_acquire`, else enqueue and `PENDING`.
(ii) Shared mode, shared request, nonempty queue: enqueue and `PENDING`.
(iii) Mode none, or shared-on-shared with an empty queue: grant, answering
`GRANTED` with the incremented (and persisted) generation. -/
theorem c3_lock_operation_semantics (s : MasterState) (sid hid mode : Nat) (t : Bool)
    (h : HandleData)
    (hs : sid ∈ s.sessions)
    (hh : lookupHandle s.handleMap hid = some h)
    (hl : h.openFlags &&& OPEN_FLAG_LOCK ≠ 0)
    (hw : h.openFlags &&& OPEN_FLAG_WRITE ≠ 0) :
    ((s.node.currentLockMode = LOCK_MODE_EXCLUSIVE ∨
      (s.node.currentLockMode = LOCK_MODE_SHARED ∧ mode = LOCK_MODE_EXCLUSIVE)) →
      (t = true → lockOp true s sid hid mode t = (s, .lockBusy)) ∧
      (t = false →
        lockOp true s sid hid mode t = (enqueuePending s hid mode, .lockPending))) ∧
    ((s.node.currentLockMode = LOCK_MODE_SHARED ∧ mode = LOCK_MODE_SHARED ∧
      s.node.pendingLockRequests ≠ []) →
      lockOp true s sid hid mode t = (enqueuePending s hid mode, .lockPending)) ∧
    ((s.node.currentLockMode = 0 ∨
      (s.node.currentLockMode = LOCK_MODE_SHARED ∧ mode = LOCK_MODE_SHARED ∧
       s.node.pendingLockRequests = [])) →
      (lockOp true s sid hid mode t).2 = .lockGranted (s.node.lockGeneration + 1) ∧
      (lockOp true s sid hid mode t).1.node.lockGeneration
        = s.node.lockGeneration + 1 ∧
      (lockOp true s sid hid mode t).1.lockGenOnDisk
        = some (s.node.lockGeneration + 1)) := by
  unfold lockOp
  rw [if_pos hs, hh]
  simp only [if_neg hl, if_neg hw]
  refine ⟨?_, ?_, ?_⟩
  · rintro (hex | ⟨hsh, hm⟩)
    · rw [if_pos hex]
      constructor <;> rintro rfl <;> simp
    · rw [if_neg (by rw [hsh]; decide), if_pos hsh, if_pos hm]
      constructor <;> rintro rfl <;> simp
  · rintro ⟨hsh, hm, hp⟩
    rw [if_neg (by rw [hsh]; decide), if_pos hsh, if_neg (by rw [hm]; decide), if_pos hp]
  · rintro (h0 | ⟨hsh, hm, hp⟩)
    · rw [if_neg (by rw [h0]; decide), if_neg (by rw [h0]; decide)]
      exact ⟨lockGrant_resp s hid mode, lockGrant_gen s hid mode, lockGrant_disk s hid mode⟩
    · rw [if_neg (by rw [hsh]; decide), if_pos hsh, if_neg (by rw [hm]; decide),
        if_neg (by simp [hp])]
      exact ⟨lockGrant_resp s hid mode, lockGrant_gen s hid mode, lockGrant_disk s hid mode⟩

/-- Witness for C3: handle 2, freshly opened with LOCK|WRITE on a node with
generation 1 and no lock held, is granted a shared lock with generation 2. -/
theorem c3_lock_operation_semantics_witness :
    (lockOp true (run (initState [1] true (some 1)) [.openNode 1 6 0]) 1 2 1 false).2
      = .lockGranted 2 := by
  have h := c3_lock_operation_semantics
    (run (initState [1] true (some 1)) [.openNode 1 6 0]) 1 2 1 false
    { id := 2, openFlags := 6, eventMask := 0, locked := false }
    (by decide) (by decide) (by decide) (by decide)
  exact (h.2.2 (Or.inl (by decide))).1

/-- C6 (amended): a request on a node whose record is live (present in the
map, descriptor open) takes the fast path of `Master::Open` and succeeds with
a fresh handle — in particular a non-TEMP open of an existing ephemeral
(TEMP) node succeeds rather than failing with `FILE_EXISTS`.  The
`FILE_EXISTS` TEMP-mismatch error arises only in the reverse direction:
a TEMP-flagged open of an existing permanent file whose node record has a
closed descriptor (source lines 756–760). -/
theorem c6_open_temp_amended (s : MasterState) (sid flags eventMask : Nat)
    (hs : sid ∈ s.sessions)
    (hce : ¬(flags &&& OPEN_FLAG_CREATE ≠ 0 ∧ flags &&& OPEN_FLAG_EXCL ≠ 0)) :
    (s.nodeInMap = true → s.node.fdValid = true →
      openOp s sid flags eventMask = finishOpen s flags eventMask false ∧
      (openOp s sid flags eventMask).2 = .opened (s.nextHandleNumber + 1) false) ∧
    (s.nodeInMap = true → s.node.fdValid = false → s.fileExistsOnDisk = true →
     s.node.ephemeral = false → flags &&& OPEN_FLAG_TEMP ≠ 0 →
      openOp s sid flags eventMask = (s, .err .fileExists)) := by
  constructor
  · intro hn hf
    unfold openOp
    rw [if_pos hs, if_neg (fun hc => hce hc.2), if_neg (by simp [hn, hf])]
    exact ⟨rfl, rfl⟩
  · intro hn hf hex heph htemp
    unfold openOp
    rw [if_pos hs, if_neg (fun hc => hce hc.2), if_pos (Or.inr (by simp [hf])),
      if_pos ⟨by simp [hn], htemp, by simp [hex], by simp [heph]⟩]

/-- Witness for C6 (amended): opening the live ephemeral node without TEMP
succeeds with handle 3. -/
theorem c6_open_temp_amended_witness :
    (openOp (run (initState [1] false none) [.openNode 1 46 0]) 1 1 0).2
      = .opened 3 false := by
  have h := c6_open_temp_amended (run (initState [1] false none) [.openNode 1 46 0])
    1 1 0 (by decide) (by decide)
  exact (h.1 (by decide) (by decide)).2

/-- C7 (amended): when the handle id is absent from the handle table, only
`Master::Close` answers `HYPERSPACE_INVALID_HANDLE`; `AttrSet`, `AttrGet`,
`AttrDel`, `Lock` and `Release` all answer `HYPERSPACE_EXPIRED_SESSION`
(source lines 881, 923, 966, 1023, 1141). -/
theorem c7_absent_handle_amended (s : MasterState) (sid hid : Nat)
    (n v : String)
    (hs : sid ∈ s.sessions)
    (hh : lookupHandle s.handleMap hid = none) :
    (closeOp s sid hid).2 = .err .invalidHandle ∧
    (attrSetOp true s sid hid n v).2 = .err .expiredSession ∧
    (attrGetOp s sid hid n).2 = .err .expiredSession ∧
    (attrDelOp s sid hid n).2 = .err .expiredSession ∧
    (lockOp true s sid hid 1 false).2 = .err .expiredSession ∧
    (releaseOp true s sid hid).2 = .err .expiredSession := by
  refine ⟨?_, ?_, ?_, ?_, ?_, ?_⟩
  · unfold closeOp; rw [if_pos hs, hh]
  · unfold attrSetOp; rw [if_pos hs, hh]
  · unfold attrGetOp; rw [if_pos hs, hh]
  · unfold attrDelOp; rw [if_pos hs, hh]
  · unfold lockOp; rw [if_pos hs, hh]
  · unfold releaseOp; rw [if_pos hs, hh]

/-- Witness for C7 (amended): closing never-allocated handle 9 under the
valid session 1 answers `INVALID_HANDLE`. -/
theorem c7_absent_handle_amended_witness :
    (closeOp (initState [1] true (some 1)) 1 9).2 = .err .invalidHandle := by
  exact (c7_absent_handle_amended (initState [1] true (some 1)) 1 9 "a" "b"
    (by decide) (by decide)).1

/-- The delivery scan is exactly a filter on the event mask. -/
lemma deliverScan_eq (evMask : Nat) (hm : List (Nat × HandleData)) :
    deliverScan evMask hm =
      ((hm.filter fun p => p.2.eventMask &&& evMask != 0).length,
       (hm.filter fun p => p.2.eventMask &&& evMask != 0).map Prod.fst) := by
  induction hm with
  | nil => rfl
  | cons p rest ih =>
    obtain ⟨hid, h⟩ := p
    by_cases hc : h.eventMask &&& evMask ≠ 0
    · simp [deliverScan, ih, List.filter_cons, hc]
    · simp [deliverScan, ih, List.filter_cons, hc]

/-- C10: `Master::DeliverEventNotifications` increments the event's
notification counter exactly once per handle in the node's handle map whose
event mask intersects the event's mask (each such handle is notified exactly
once when the map's keys are distinct, as they are in a `std::map`), and the
barrier-enabled form waits exactly when at least one handle matched. -/
theorem c10_delivery_fanout (hm : List (Nat × HandleData)) (evMask : Nat) (w : Bool)
    (hnd : (hm.map Prod.fst).Nodup) :
    (deliverEventNotifications hm evMask w).count
        = (hm.filter fun p => p.2.eventMask &&& evMask != 0).length ∧
    (deliverEventNotifications hm evMask w).notified
        = (hm.filter fun p => p.2.eventMask &&& evMask != 0).map Prod.fst ∧
    (∀ hid ∈ (deliverEventNotifications hm evMask w).notified,
      List.count hid (deliverEventNotifications hm evMask w).notified = 1) ∧
    ((deliverEventNotifications hm evMask w).waited = true ↔
      w = true ∧ (hm.filter fun p => p.2.eventMask &&& evMask != 0).length ≠ 0) := by
  have hd : deliverEventNotifications hm evMask w
      = { count := (hm.filter fun p => p.2.eventMask &&& evMask != 0).length
          notified := (hm.filter fun p => p.2.eventMask &&& evMask != 0).map Prod.fst
          waited := w && ((hm.filter fun p => p.2.eventMask &&& evMask != 0).length != 0) } := by
    unfold deliverEventNotifications
    rw [deliverScan_eq]
  have hsub : ((hm.filter fun p => p.2.eventMask &&& evMask != 0).map Prod.fst).Sublist
      (hm.map Prod.fst) := (List.filter_sublist hm).map _
  have hnd2 : ((hm.filter fun p => p.2.eventMask &&& evMask != 0).map Prod.fst).Nodup :=
    List.Nodup.sublist hsub hnd
  rw [hd]
  refine ⟨rfl, rfl, ?_, ?_⟩
  · intro hid hmem
    exact List.count_eq_one_of_mem hnd2 hmem
  · simp

/-- Witness for C10: of two handles, only handle 2 subscribes to
`LOCK_ACQUIRED` (mask 16); delivering such an event counts one notification
and the barrier-enabled call does wait. -/
theorem c10_delivery_fanout_witness :
    (deliverEventNotifications
      [(2, { id := 2, openFlags := 6, eventMask := 16, locked := false }),
       (3, { id := 3, openFlags := 6, eventMask := 0, locked := false })]
      16 true).count = 1 ∧
    (deliverEventNotifications
      [(2, { id := 2, openFlags := 6, eventMask := 16, locked := false }),
       (3, { id := 3, openFlags := 6, eventMask := 0, locked := false })]
      16 true).waited = true := by
  have h := c10_delivery_fanout
    [(2, { id := 2, openFlags := 6, eventMask := 16, locked := false }),
     (3, { id := 3, openFlags := 6, eventMask := 0, locked := false })]
    16 true (by decide)
  exact ⟨h.1.trans (by decide), h.2.2.2.mpr ⟨rfl, by decide⟩⟩

/-- Appending a session record keeps existing lookups succeeding. -/
lemma lookupSession_append_isSome (m : List (Nat × SessionData))
    (x : Nat × SessionData) (sid : Nat)
    (h : (lookupSession m sid).isSome = true) :
    (lookupSession (m ++ [x]) sid).isSome = true := by
  induction m with
  | nil => simp [lookupSession] at h
  | cons p rest ih =>
    obtain ⟨k, v⟩ := p
    rw [List.cons_append]
    simp only [lookupSession] at h ⊢
    by_cases hc : k = sid
    · rw [if_pos hc]; rfl
    · rw [if_neg hc] at h ⊢
      exact ih h

/-- Marking a session expired changes no key: lookup success is unchanged. -/
lemma lookupSession_markExpired_isSome (m : List (Nat × SessionData)) (tgt sid : Nat) :
    (lookupSession (markExpired m tgt) sid).isSome = (lookupSession m sid).isSome := by
  induction m with
  | nil => rfl
  | cons p rest ih =>
    obtain ⟨k, v⟩ := p
    by_cases ht : k = tgt
    · simp only [markExpired, if_pos ht, lookupSession]
      by_cases hc : k = sid
      · rw [if_pos hc, if_pos hc]; rfl
      · rw [if_neg hc, if_neg hc]
    · simp only [markExpired, if_neg ht, lookupSession]
      by_cases hc : k = sid
      · rw [if_pos hc, if_pos hc]
      · rw [if_neg hc, if_neg hc]
        exact ih

/-- `NextExpiredSession` pops only the heap; the session map is untouched. -/
lemma nextExpiredSession_map_eq (p : Nat → Bool) (r r1 : SessionRegistry) (sid : Nat)
    (h : nextExpiredSession p r = some (r1, sid)) :
    r1.sessionMap = r.sessionMap := by
  unfold nextExpiredSession at h
  cases hf : r.sessionHeap.find? p with
  | none => rw [hf] at h; exact absurd h (by simp)
  | some x =>
    rw [hf] at h
    simp at h
    rw [← h.1]

/-- The expiry loop never makes a session-map lookup fail. -/
lemma removeExpiredSessionsAux_keeps (p : Nat → Bool) (fuel : Nat) :
    ∀ (r : SessionRegistry) (sid : Nat), getSessionData r sid = true →
      getSessionData (removeExpiredSessionsAux p fuel r) sid = true := by
  induction fuel with
  | zero => intro r sid h; exact h
  | succ n ih =>
    intro r sid h
    unfold removeExpiredSessionsAux
    cases he : nextExpiredSession p r with
    | none => exact h
    | some pr =>
      obtain ⟨r1, tgt⟩ := pr
      apply ih
      unfold getSessionData at h ⊢
      simp only
      rw [lookupSession_markExpired_isSome, nextExpiredSession_map_eq p r r1 tgt he]
      exact h

/-- No registry request makes a session-map lookup fail. -/
lemma regStep_keeps (r : SessionRegistry) (op : RegOp) (sid : Nat)
    (h : getSessionData r sid = true) :
    getSessionData (regStep r op) sid = true := by
  cases op with
  | create =>
    unfold regStep createSession getSessionData at *
    exact lookupSession_append_isSome _ _ _ h
  | renew _ => exact h
  | expire p => exact removeExpiredSessionsAux_keeps p _ r sid h

/-- C9: a session entry, once in `mSessionMap`, is never removed — the expiry
path (`NextExpiredSession` / `RemoveExpiredSessions`) only pops the heap and
marks the record expired, so `GetSessionData` on an expired session id keeps
succeeding (the session-lookup step does not answer `EXPIRED_SESSION`) after
any sequence of create / renew / expiry-loop operations. -/
theorem c9_session_map_never_shrinks (r : SessionRegistry) (ops : List RegOp) (sid : Nat)
    (h : getSessionData r sid = true) :
    getSessionData (regRun r ops) sid = true ∧
    getSessionData (createSession r).1 (createSession r).2 = true ∧
    ∀ p : Nat → Bool, getSessionData (removeExpiredSessions p r) sid = true := by
  refine ⟨?_, ?_, ?_⟩
  · induction ops generalizing r with
    | nil => exact h
    | cons op rest ih => exact ih (regStep r op) (regStep_keeps r op sid h)
  · unfold createSession getSessionData
    simp only
    induction r.sessionMap with
    | nil => simp [lookupSession]
    | cons p rest ih =>
      obtain ⟨k, v⟩ := p
      rw [List.cons_append]
      simp only [lookupSession]
      by_cases hc : k = r.nextSessionId
      · rw [if_pos hc]; rfl
      · rw [if_neg hc]
        exact ih
  · intro p
    exact removeExpiredSessionsAux_keeps p _ r sid h

/-- Witness for C9: session 1 is created, then the expiry loop expires
everything; session 1 is still found by `GetSessionData`. -/
theorem c9_session_map_never_shrinks_witness :
    getSessionData
      (regRun (createSession { sessionMap := [], sessionHeap := [], nextSessionId := 1 }).1
        [RegOp.expire fun _ => true]) 1 = true := by
  exact (c9_session_map_never_shrinks
    (createSession { sessionMap := [], sessionHeap := [], nextSessionId := 1 }).1
    [RegOp.expire fun _ => true] 1 (by decide)).1


lemma stepShape_of_eq (s s' : MasterState)
    (h1 : s'.genLog = s.genLog) (h2 : s'.node.lockGeneration = s.node.lockGeneration)
    (h3 : s'.incarnation = s.incarnation) (h4 : pendingTags s' = pendingTags s)
    (h5 : grantTags s' = grantTags s) (h6 : s'.nextTag = s.nextTag) :
    StepShape s s' := by
  refine ⟨Or.inl ⟨h1, h2, h3⟩, Or.inl ⟨h6, 0, [], ?_, ?_, ?_⟩⟩
  · simp
  · simp [h4]
  · simp [h5]

lemma stepShape_congr (s0 s4 s' : MasterState)
    (h1 : s4.genLog = s0.genLog) (h2 : s4.node.lockGeneration = s0.node.lockGeneration)
    (h3 : s4.incarnation = s0.incarnation) (h4 : pendingTags s4 = pendingTags s0)
    (h5 : grantTags s4 = grantTags s0) (h6 : s4.nextTag = s0.nextTag)
    (hs : StepShape s4 s') : StepShape s0 s' := by
  obtain ⟨hg, ht⟩ := hs
  constructor
  · rcases hg with ⟨a1, a2, a3⟩ | ⟨a1, a2, a3, a4⟩ | ⟨a1, a2⟩
    · exact Or.inl ⟨a1.trans h1, a2.trans h2, a3.trans h3⟩
    · exact Or.inr (Or.inl ⟨by rw [a1, h1, h2, h3], by rw [a2, h2], a3.trans h3,
        by rw [a4, h2]⟩)
    · exact Or.inr (Or.inr ⟨a1.trans h1, by rw [a2, h3]⟩)
  · rcases ht with ⟨a1, k, ap, asub, adrop, agrant⟩ | ⟨a1, a2, a3⟩ | ⟨a1, a2, a3⟩
    · exact Or.inl ⟨a1.trans h6, k, ap, by rw [← h4]; exact asub,
        by rw [adrop, h4], by rw [agrant, h5]⟩
    · exact Or.inr (Or.inl ⟨by rw [a1, h6], by rw [a2, h4, h6], a3.trans h5⟩)
    · exact Or.inr (Or.inr ⟨a1.trans h6, a2, a3.trans h5⟩)

lemma enqueuePending_pendingTags (s : MasterState) (hid mode : Nat) :
    pendingTags (enqueuePending s hid mode) = pendingTags s ++ [s.nextTag] := by
  simp [enqueuePending, pendingTags]

lemma enqueuePending_stepShape (s : MasterState) (hid mode : Nat) :
    StepShape s (enqueuePending s hid mode) := by
  refine ⟨Or.inl ⟨rfl, rfl, rfl⟩, Or.inr (Or.inl ⟨rfl, enqueuePending_pendingTags s hid mode, rfl⟩)⟩

lemma lockGrant_genLog (s : MasterState) (hid mode : Nat) :
    (lockGrant true s hid mode).1.genLog
      = s.genLog ++ [(s.incarnation, s.node.lockGeneration + 1)] := by
  unfold lockGrant
  simp [ite_emitEvent_genLog]

lemma lockGrant_incarnation (s : MasterState) (hid mode : Nat) :
    (lockGrant true s hid mode).1.incarnation = s.incarnation := by
  unfold lockGrant
  simp [ite_emitEvent_incarnation]

lemma lockGrant_nextTag (s : MasterState) (hid mode : Nat) :
    (lockGrant true s hid mode).1.nextTag = s.nextTag := by
  unfold lockGrant
  simp [ite_emitEvent_nextTag]

lemma lockGrant_pendingTags (s : MasterState) (hid mode : Nat) :
    pendingTags (lockGrant true s hid mode).1 = pendingTags s := by
  unfold lockGrant pendingTags
  simp [ite_emitEvent_node]

lemma lockGrant_grantTags (s : MasterState) (hid mode : Nat) :
    grantTags (lockGrant true s hid mode).1 = grantTags s := by
  unfold lockGrant grantTags
  simp [ite_emitEvent_grantLog]

lemma lockGrant_stepShape (s : MasterState) (hid mode : Nat) :
    StepShape s (lockGrant true s hid mode).1 := by
  refine ⟨Or.inr (Or.inl ⟨lockGrant_genLog s hid mode, lockGrant_gen s hid mode,
    lockGrant_incarnation s hid mode, lockGrant_disk s hid mode⟩),
    Or.inl ⟨lockGrant_nextTag s hid mode, 0, [], by simp, by simp [lockGrant_pendingTags],
      by simp [lockGrant_grantTags]⟩⟩



lemma releaseHolder_genLog (s : MasterState) (hid : Nat) :
    (releaseHolder s hid).genLog = s.genLog := by
  unfold releaseHolder
  by_cases he : s.node.exclusiveLockHandle ≠ 0 <;>
    simp [he, ite_emitEvent_genLog]

lemma releaseHolder_gen (s : MasterState) (hid : Nat) :
    (releaseHolder s hid).node.lockGeneration = s.node.lockGeneration := by
  unfold releaseHolder
  by_cases he : s.node.exclusiveLockHandle ≠ 0 <;>
    simp [he, ite_emitEvent_node]

lemma releaseHolder_incarnation (s : MasterState) (hid : Nat) :
    (releaseHolder s hid).incarnation = s.incarnation := by
  unfold releaseHolder
  by_cases he : s.node.exclusiveLockHandle ≠ 0 <;>
    simp [he, ite_emitEvent_incarnation]

lemma releaseHolder_pendingTags (s : MasterState) (hid : Nat) :
    pendingTags (releaseHolder s hid) = pendingTags s := by
  unfold releaseHolder pendingTags
  by_cases he : s.node.exclusiveLockHandle ≠ 0 <;>
    simp [he, ite_emitEvent_node]

lemma releaseHolder_grantTags (s : MasterState) (hid : Nat) :
    grantTags (releaseHolder s hid) = grantTags s := by
  unfold releaseHolder grantTags
  by_cases he : s.node.exclusiveLockHandle ≠ 0 <;>
    simp [he, ite_emitEvent_grantLog]

lemma releaseHolder_nextTag (s : MasterState) (hid : Nat) :
    (releaseHolder s hid).nextTag = s.nextTag := by
  unfold releaseHolder
  by_cases he : s.node.exclusiveLockHandle ≠ 0 <;>
    simp [he, ite_emitEvent_nextTag]

lemma finishOpen_stepShape (s : MasterState) (flags em : Nat) (c : Bool) :
    StepShape s (finishOpen s flags em c).1 :=
  stepShape_of_eq s _ rfl rfl rfl rfl rfl rfl

lemma collectPendingShared_eq (live : Nat → Bool) (p : List LockRequest) :
    collectPendingShared live p =
      ((p.takeWhile fun q => q.mode == LOCK_MODE_SHARED).filter fun q => live q.handle,
       p.dropWhile fun q => q.mode == LOCK_MODE_SHARED) := by
  induction p with
  | nil => rfl
  | cons r rest ih =>
    by_cases hm : r.mode = LOCK_MODE_SHARED
    · simp [collectPendingShared, hm, List.takeWhile_cons, List.dropWhile_cons, ih,
        List.filter_cons]
    · simp [collectPendingShared, hm, List.takeWhile_cons, List.dropWhile_cons]

lemma lockHWN_grantLog (s : MasterState) (r : LockRequest) (m : Nat) :
    (lockHandleWithNotification s r m).grantLog
      = s.grantLog ++ [(⟨some r.tag, r.handle, s.node.lockGeneration⟩ : GrantRec)] := rfl

lemma lockHWN_gen (s : MasterState) (r : LockRequest) (m : Nat) :
    (lockHandleWithNotification s r m).node.lockGeneration
      = s.node.lockGeneration := rfl

lemma lockHWN_genLog (s : MasterState) (r : LockRequest) (m : Nat) :
    (lockHandleWithNotification s r m).genLog = s.genLog := rfl

lemma lockHWN_incarnation (s : MasterState) (r : LockRequest) (m : Nat) :
    (lockHandleWithNotification s r m).incarnation = s.incarnation := rfl

lemma lockHWN_nextTag (s : MasterState) (r : LockRequest) (m : Nat) :
    (lockHandleWithNotification s r m).nextTag = s.nextTag := rfl

lemma lockHWN_pending (s : MasterState) (r : LockRequest) (m : Nat) :
    (lockHandleWithNotification s r m).node.pendingLockRequests
      = s.node.pendingLockRequests := rfl

lemma lockHWN_lockGenOnDisk (s : MasterState) (r : LockRequest) (m : Nat) :
    (lockHandleWithNotification s r m).lockGenOnDisk = s.lockGenOnDisk := rfl

lemma foldl_lockHWN_grantLog (m : Nat) (l : List LockRequest) :
    ∀ s : MasterState,
      (l.foldl (fun acc r => lockHandleWithNotification acc r m) s).grantLog
        = s.grantLog ++ l.map (fun r =>
            (⟨some r.tag, r.handle, s.node.lockGeneration⟩ : GrantRec)) := by
  induction l with
  | nil => intro s; simp
  | cons r rest ih =>
    intro s
    rw [List.foldl_cons, ih, lockHWN_grantLog, lockHWN_gen]
    simp

lemma foldl_lockHWN_gen (m : Nat) (l : List LockRequest) :
    ∀ s : MasterState,
      (l.foldl (fun acc r => lockHandleWithNotification acc r m) s).node.lockGeneration
        = s.node.lockGeneration := by
  induction l with
  | nil => intro s; rfl
  | cons r rest ih => intro s; rw [List.foldl_cons, ih, lockHWN_gen]

lemma foldl_lockHWN_genLog (m : Nat) (l : List LockRequest) :
    ∀ s : MasterState,
      (l.foldl (fun acc r => lockHandleWithNotification acc r m) s).genLog = s.genLog := by
  induction l with
  | nil => intro s; rfl
  | cons r rest ih => intro s; rw [List.foldl_cons, ih, lockHWN_genLog]

lemma foldl_lockHWN_incarnation (m : Nat) (l : List LockRequest) :
    ∀ s : MasterState,
      (l.foldl (fun acc r => lockHandleWithNotification acc r m) s).incarnation
        = s.incarnation := by
  induction l with
  | nil => intro s; rfl
  | cons r rest ih => intro s; rw [List.foldl_cons, ih, lockHWN_incarnation]

lemma foldl_lockHWN_nextTag (m : Nat) (l : List LockRequest) :
    ∀ s : MasterState,
      (l.foldl (fun acc r => lockHandleWithNotification acc r m) s).nextTag
        = s.nextTag := by
  induction l with
  | nil => intro s; rfl
  | cons r rest ih => intro s; rw [List.foldl_cons, ih, lockHWN_nextTag]

lemma foldl_lockHWN_pending (m : Nat) (l : List LockRequest) :
    ∀ s : MasterState,
      (l.foldl (fun acc r => lockHandleWithNotification acc r m) s).node.pendingLockRequests
        = s.node.pendingLockRequests := by
  induction l with
  | nil => intro s; rfl
  | cons r rest ih => intro s; rw [List.foldl_cons, ih, lockHWN_pending]

lemma foldl_lockHWN_lockGenOnDisk (m : Nat) (l : List LockRequest) :
    ∀ s : MasterState,
      (l.foldl (fun acc r => lockHandleWithNotification acc r m) s).lockGenOnDisk
        = s.lockGenOnDisk := by
  induction l with
  | nil => intro s; rfl
  | cons r rest ih => intro s; rw [List.foldl_cons, ih, lockHWN_lockGenOnDisk]

lemma filterMap_tag_grant_entries (l : List LockRequest) (g : Nat) :
    ((l.map fun r => (⟨some r.tag, r.handle, g⟩ : GrantRec)).filterMap
      (·.tag)) = l.map (·.tag) := by
  induction l with
  | nil => rfl
  | cons r rest ih => simp [ih]

lemma filterMap_some_tag (l : List LockRequest) :
    (l.filterMap fun r => some r.tag) = l.map (·.tag) := by
  induction l with
  | nil => rfl
  | cons r rest ih => simp [ih]

lemma filterMap_tag_comp (g : Nat) (l : List LockRequest) :
    l.filterMap ((fun x : GrantRec => x.tag) ∘ fun r => (⟨some r.tag, r.handle, g⟩ : GrantRec))
      = l.map (·.tag) := by
  induction l with
  | nil => rfl
  | cons r rest ih =>
    have hr : ((fun x : GrantRec => x.tag) ∘ fun q => (⟨some q.tag, q.handle, g⟩ : GrantRec)) r
        = some r.tag := rfl
    simp only [List.filterMap_cons, hr, ih, List.map_cons]



lemma emitEvent_genLog (s : MasterState) (k : EventKind) :
    (emitEvent s k).genLog = s.genLog := rfl

lemma emitEvent_grantLog (s : MasterState) (k : EventKind) :
    (emitEvent s k).grantLog = s.grantLog := rfl

lemma emitEvent_nextTag (s : MasterState) (k : EventKind) :
    (emitEvent s k).nextTag = s.nextTag := rfl

lemma emitEvent_incarnation (s : MasterState) (k : EventKind) :
    (emitEvent s k).incarnation = s.incarnation := rfl

lemma map_drop_takeWhile (P : LockRequest → Bool) (f : LockRequest → Nat)
    (p : List LockRequest) :
    (p.dropWhile P).map f = (p.map f).drop ((p.takeWhile P).length) := by
  calc (p.dropWhile P).map f
      = ((p.takeWhile P).map f ++ (p.dropWhile P).map f).drop
          ((p.takeWhile P).map f).length := by rw [List.drop_left]
    _ = (p.map f).drop ((p.takeWhile P).length) := by
        rw [← List.map_append, List.takeWhile_append_dropWhile, List.length_map]

lemma map_take_takeWhile (P : LockRequest → Bool) (f : LockRequest → Nat)
    (p : List LockRequest) :
    (p.takeWhile P).map f = (p.map f).take ((p.takeWhile P).length) := by
  calc (p.takeWhile P).map f
      = ((p.takeWhile P).map f ++ (p.dropWhile P).map f).take
          ((p.takeWhile P).map f).length := by rw [List.take_left]
    _ = (p.map f).take ((p.takeWhile P).length) := by
        rw [← List.map_append, List.takeWhile_append_dropWhile, List.length_map]

lemma drainPending_cons (live : Nat → Bool) (r : LockRequest) (rest : List LockRequest) :
    drainPending live (r :: rest)
      = if r.mode = LOCK_MODE_EXCLUSIVE then
          (LOCK_MODE_EXCLUSIVE, if live r.handle then [r] else [], rest)
        else
          (LOCK_MODE_SHARED,
           ((r :: rest).takeWhile fun q => q.mode == LOCK_MODE_SHARED).filter
             fun q => live q.handle,
           (r :: rest).dropWhile fun q => q.mode == LOCK_MODE_SHARED) := by
  have hd : drainPending live (r :: rest)
      = if r.mode = LOCK_MODE_EXCLUSIVE then
          (LOCK_MODE_EXCLUSIVE, if live r.handle then [r] else [], rest)
        else
          (LOCK_MODE_SHARED, (collectPendingShared live (r :: rest)).1,
           (collectPendingShared live (r :: rest)).2) := rfl
  rw [hd, collectPendingShared_eq]

lemma processPendingQueue_stepShape (s : MasterState) :
    StepShape s (processPendingQueue true s).1 := by
  by_cases hp : s.node.pendingLockRequests = []
  · unfold processPendingQueue
    rw [if_pos hp]
    exact stepShape_of_eq s s rfl rfl rfl rfl rfl rfl
  · obtain ⟨r, rest, hrr⟩ : ∃ r rest, s.node.pendingLockRequests = r :: rest := by
      cases hc : s.node.pendingLockRequests with
      | nil => exact absurd hc hp
      | cons a b => exact ⟨a, b, rfl⟩
    unfold processPendingQueue
    rw [if_neg hp]
    by_cases hm : r.mode = LOCK_MODE_EXCLUSIVE
    · have hdrain : drainPending (fun x => (lookupHandle s.handleMap x).isSome)
          s.node.pendingLockRequests
          = (LOCK_MODE_EXCLUSIVE,
             if (lookupHandle s.handleMap r.handle).isSome then [r] else [], rest) := by
        rw [hrr, drainPending_cons, if_pos hm]
      by_cases hlive : (lookupHandle s.handleMap r.handle).isSome
      · rw [hdrain, if_pos hlive]
        refine ⟨Or.inr (Or.inl ⟨?_, ?_, ?_, ?_⟩),
          Or.inl ⟨?_, 1, [r.tag], ?_, ?_, ?_⟩⟩
        · simp [emitEvent_genLog, foldl_lockHWN_genLog, lockHWN_genLog]
        · simp [emitEvent_node, foldl_lockHWN_gen, lockHWN_gen]
        · simp [emitEvent_incarnation, foldl_lockHWN_incarnation, lockHWN_incarnation]
        · simp [emitEvent_lockGenOnDisk, foldl_lockHWN_lockGenOnDisk,
            lockHWN_lockGenOnDisk]
        · simp [emitEvent_nextTag, foldl_lockHWN_nextTag, lockHWN_nextTag]
        · simp [pendingTags, hrr]
        · simp [pendingTags, hrr, emitEvent_node, foldl_lockHWN_pending, lockHWN_pending]
        · simp [grantTags, emitEvent_grantLog, foldl_lockHWN_grantLog, lockHWN_grantLog,
            filterMap_tag_grant_entries, List.filterMap_append]
      · rw [hdrain, if_neg hlive]
        refine ⟨Or.inl ⟨rfl, rfl, rfl⟩,
          Or.inl ⟨rfl, 1, [], by simp, ?_, by simp [grantTags]⟩⟩
        simp [pendingTags, hrr]
    · have hdrain : drainPending (fun x => (lookupHandle s.handleMap x).isSome)
          s.node.pendingLockRequests
          = (LOCK_MODE_SHARED,
             (s.node.pendingLockRequests.takeWhile
               fun q => q.mode == LOCK_MODE_SHARED).filter
                 fun q => (lookupHandle s.handleMap q.handle).isSome,
             s.node.pendingLockRequests.dropWhile
               fun q => q.mode == LOCK_MODE_SHARED) := by
        conv_lhs => rw [hrr, drainPending_cons]
        rw [if_neg hm, hrr]
      rw [hdrain]
      by_cases hc : (s.node.pendingLockRequests.takeWhile
          fun q => q.mode == LOCK_MODE_SHARED).filter
            (fun q => (lookupHandle s.handleMap q.handle).isSome) = []
      · rw [if_pos hc]
        refine ⟨Or.inl ⟨rfl, rfl, rfl⟩,
          Or.inl ⟨rfl,
            (s.node.pendingLockRequests.takeWhile
              fun q => q.mode == LOCK_MODE_SHARED).length,
            [], by simp, ?_, by simp [grantTags]⟩⟩
        simp only [pendingTags]
        exact map_drop_takeWhile _ _ _
      · rw [if_neg hc]
        refine ⟨Or.inr (Or.inl ⟨?_, ?_, ?_, ?_⟩),
          Or.inl ⟨?_,
            (s.node.pendingLockRequests.takeWhile
              fun q => q.mode == LOCK_MODE_SHARED).length,
            ((s.node.pendingLockRequests.takeWhile
              fun q => q.mode == LOCK_MODE_SHARED).filter
                (fun q => (lookupHandle s.handleMap q.handle).isSome)).map (·.tag),
            ?_, ?_, ?_⟩⟩
        · simp [emitEvent_genLog, foldl_lockHWN_genLog, lockHWN_genLog]
        · simp [emitEvent_node, foldl_lockHWN_gen, lockHWN_gen]
        · simp [emitEvent_incarnation, foldl_lockHWN_incarnation, lockHWN_incarnation]
        · simp [emitEvent_lockGenOnDisk, foldl_lockHWN_lockGenOnDisk,
            lockHWN_lockGenOnDisk]
        · simp [emitEvent_nextTag, foldl_lockHWN_nextTag, lockHWN_nextTag]
        · rw [pendingTags, ← map_take_takeWhile]
          exact (List.filter_sublist _).map _
        · simp [pendingTags, emitEvent_node, foldl_lockHWN_pending, lockHWN_pending,
            map_drop_takeWhile]
        · simp [grantTags, emitEvent_grantLog, foldl_lockHWN_grantLog, lockHWN_grantLog,
            filterMap_tag_grant_entries, List.filterMap_append, filterMap_some_tag,
            filterMap_tag_comp]



lemma releaseLockCore_stepShape (s : MasterState) (hid : Nat) (h : HandleData) :
    StepShape s (releaseLockCore true s hid h).1 := by
  unfold releaseLockCore
  by_cases hl : h.locked
  · rw [if_pos hl]
    exact stepShape_congr s (releaseHolder s hid) _
      (releaseHolder_genLog s hid) (releaseHolder_gen s hid)
      (releaseHolder_incarnation s hid) (releaseHolder_pendingTags s hid)
      (releaseHolder_grantTags s hid) (releaseHolder_nextTag s hid)
      (processPendingQueue_stepShape (releaseHolder s hid))
  · rw [if_neg hl]
    exact stepShape_of_eq s s rfl rfl rfl rfl rfl rfl

lemma lockOp_stepShape (s : MasterState) (sid hid mode : Nat) (t : Bool) :
    StepShape s (lockOp true s sid hid mode t).1 := by
  unfold lockOp
  repeat' first
    | exact enqueuePending_stepShape s hid mode
    | exact lockGrant_stepShape s hid mode
    | exact stepShape_of_eq s _ rfl rfl rfl rfl rfl rfl
    | split

lemma releaseOp_stepShape (s : MasterState) (sid hid : Nat) :
    StepShape s (releaseOp true s sid hid).1 := by
  unfold releaseOp
  split
  · split
    · exact stepShape_of_eq s s rfl rfl rfl rfl rfl rfl
    · rename_i hd heq
      dsimp only
      split
      · exact releaseLockCore_stepShape s hid hd
      · exact releaseLockCore_stepShape s hid hd
  · exact stepShape_of_eq s s rfl rfl rfl rfl rfl rfl

lemma closeOp_stepShape (s : MasterState) (sid hid : Nat) :
    StepShape s (closeOp s sid hid).1 := by
  unfold closeOp
  dsimp only
  repeat' first
    | exact stepShape_of_eq s _ rfl rfl rfl rfl rfl rfl
    | split

lemma attrSetOp_stepShape (s : MasterState) (sid hid : Nat) (n v : String) :
    StepShape s (attrSetOp true s sid hid n v).1 := by
  unfold attrSetOp
  repeat' first
    | exact stepShape_of_eq s _ rfl rfl rfl rfl rfl rfl
    | split

lemma attrGetOp_stepShape (s : MasterState) (sid hid : Nat) (n : String) :
    StepShape s (attrGetOp s sid hid n).1 := by
  unfold attrGetOp
  repeat' first
    | exact stepShape_of_eq s _ rfl rfl rfl rfl rfl rfl
    | split

lemma attrDelOp_stepShape (s : MasterState) (sid hid : Nat) (n : String) :
    StepShape s (attrDelOp s sid hid n).1 := by
  unfold attrDelOp
  repeat' first
    | exact stepShape_of_eq s _ rfl rfl rfl rfl rfl rfl
    | split

lemma openOp_stepShape (s : MasterState) (sid flags em : Nat) :
    StepShape s (openOp s sid flags em).1 := by
  unfold openOp
  dsimp only
  repeat' first
    | exact stepShape_of_eq s _ rfl rfl rfl rfl rfl rfl
    | exact ⟨Or.inr (Or.inr ⟨rfl, rfl⟩), Or.inr (Or.inr ⟨rfl, rfl, rfl⟩)⟩
    | split

lemma stepShape_step (s : MasterState) (op : Op) : StepShape s (step s op) := by
  cases op with
  | openNode sid f m => exact openOp_stepShape s sid f m
  | close sid h => exact closeOp_stepShape s sid h
  | lock sid h m t => exact lockOp_stepShape s sid h m t
  | release sid h => exact releaseOp_stepShape s sid h
  | attrSet sid h n v => exact attrSetOp_stepShape s sid h n v
  | attrGet sid h n => exact attrGetOp_stepShape s sid h n
  | attrDel sid h n => exact attrDelOp_stepShape s sid h n



lemma sorted_append_single (l : List Nat) (x : Nat) (hs : List.Sorted (· < ·) l)
    (hb : ∀ a ∈ l, a < x) : List.Sorted (· < ·) (l ++ [x]) := by
  rw [List.Sorted, List.pairwise_append]
  refine ⟨hs, List.pairwise_singleton _ _, fun a ha b hb' => ?_⟩
  rw [List.mem_singleton] at hb'
  subst hb'
  exact hb a ha

lemma sorted_append_sorted (l l' : List Nat) (hs : List.Sorted (· < ·) l)
    (hs' : List.Sorted (· < ·) l') (hb : ∀ a ∈ l, ∀ b ∈ l', a < b) :
    List.Sorted (· < ·) (l ++ l') := by
  rw [List.Sorted, List.pairwise_append]
  exact ⟨hs, hs', hb⟩

lemma genSeqL_append_single (log : List (Nat × Nat)) (e : Nat × Nat) (i : Nat) :
    genSeqL (log ++ [e]) i = genSeqL log i ++ if e.1 == i then [e.2] else [] := by
  unfold genSeqL
  rw [List.filter_append]
  by_cases hc : e.1 == i
  · simp [List.filter_cons, hc]
  · simp [List.filter_cons, hc]

lemma genSeqL_mem (log : List (Nat × Nat)) (i a : Nat) (h : a ∈ genSeqL log i) :
    ∃ e ∈ log, e.1 = i ∧ e.2 = a := by
  unfold genSeqL at h
  obtain ⟨e, he, rfl⟩ := List.mem_map.mp h
  have hf := List.mem_filter.mp he
  exact ⟨e, hf.1, by simpa using hf.2, rfl⟩

lemma genInv_preserved (s s' : MasterState) (hg : GenShape s s') (hi : genInv s) :
    genInv s' := by
  obtain ⟨hsort, hbound⟩ := hi
  rcases hg with ⟨h1, h2, h3⟩ | ⟨h1, h2, h3, _⟩ | ⟨h1, h2⟩
  · refine ⟨fun i => by rw [h1]; exact hsort i, fun e he => ?_⟩
    rw [h1] at he
    obtain ⟨b1, b2⟩ := hbound e he
    exact ⟨by rw [h3]; exact b1, fun hei => by
      rw [h2]; exact b2 (by rw [← h3]; exact hei)⟩
  · constructor
    · intro i
      rw [h1, genSeqL_append_single]
      by_cases hc : s.incarnation == i
      · rw [if_pos hc]
        refine sorted_append_single _ _ (hsort i) (fun a ha => ?_)
        obtain ⟨e, he, hei, hea⟩ := genSeqL_mem _ _ _ ha
        obtain ⟨_, b2⟩ := hbound e he
        have hci : s.incarnation = i := by simpa using hc
        have : e.2 ≤ s.node.lockGeneration := b2 (by rw [hei, ← hci])
        omega
      · rw [if_neg hc]
        simpa using hsort i
    · intro e he
      rw [h1] at he
      rcases List.mem_append.mp he with hin | hnew
      · obtain ⟨b1, b2⟩ := hbound e hin
        refine ⟨by rw [h3]; exact b1, fun hei => ?_⟩
        rw [h2]
        have := b2 (by rw [← h3]; exact hei)
        omega
      · rw [List.mem_singleton] at hnew
        subst hnew
        exact ⟨by rw [h3], fun _ => by rw [h2]⟩
  · refine ⟨fun i => by rw [h1]; exact hsort i, fun e he => ?_⟩
    rw [h1] at he
    obtain ⟨b1, b2⟩ := hbound e he
    refine ⟨by rw [h2]; omega, fun hei => ?_⟩
    exfalso
    rw [h2] at hei
    omega



lemma tagInv_preserved (s s' : MasterState) (ht : TagShape s s') (hi : tagInv s) :
    tagInv s' := by
  obtain ⟨hps, hgs, hgp, hpn, hgn⟩ := hi
  rcases ht with ⟨h1, k, ap, hsub, hdrop, hgr⟩ | ⟨h1, h2, h3⟩ | ⟨h1, h2, h3⟩
  · have hap_pend : ∀ a ∈ ap, a ∈ pendingTags s := fun a ha =>
      List.take_subset k _ (hsub.subset ha)
    have hsplit := List.pairwise_append.mp
      (by rw [List.take_append_drop k (pendingTags s)]; exact hps)
    have htd : ∀ a ∈ (pendingTags s).take k, ∀ b ∈ (pendingTags s).drop k, a < b :=
      hsplit.2.2
    refine ⟨?_, ?_, ?_, ?_, ?_⟩
    · rw [hdrop]
      exact List.Pairwise.sublist (List.drop_sublist k _) hps
    · rw [hgr]
      refine sorted_append_sorted _ _ hgs
        (List.Pairwise.sublist (hsub.trans (List.take_sublist k _)) hps)
        (fun g hg a ha => hgp g hg a (hap_pend a ha))
    · intro g hg q hq
      rw [hgr] at hg
      rw [hdrop] at hq
      rcases List.mem_append.mp hg with hold | hnew
      · exact hgp g hold q (List.drop_subset k _ hq)
      · exact htd g (hsub.subset hnew) q hq
    · intro q hq
      rw [hdrop] at hq
      rw [h1]
      exact hpn q (List.drop_subset k _ hq)
    · intro g hg
      rw [hgr] at hg
      rw [h1]
      rcases List.mem_append.mp hg with hold | hnew
      · exact hgn g hold
      · exact hpn g (hap_pend g hnew)
  · refine ⟨?_, ?_, ?_, ?_, ?_⟩
    · rw [h2]
      exact sorted_append_single _ _ hps hpn
    · rw [h3]
      exact hgs
    · intro g hg q hq
      rw [h3] at hg
      rw [h2] at hq
      rcases List.mem_append.mp hq with hin | hlast
      · exact hgp g hg q hin
      · rw [List.mem_singleton] at hlast
        subst hlast
        exact hgn g hg
    · intro q hq
      rw [h2] at hq
      rw [h1]
      rcases List.mem_append.mp hq with hin | hlast
      · have := hpn q hin
        omega
      · rw [List.mem_singleton] at hlast
        subst hlast
        omega
    · intro g hg
      rw [h3] at hg
      rw [h1]
      have := hgn g hg
      omega
  · refine ⟨?_, ?_, ?_, ?_, ?_⟩
    · rw [h2]
      exact List.sorted_nil
    · rw [h3]
      exact hgs
    · intro g hg q hq
      rw [h2] at hq
      exact absurd hq (List.not_mem_nil q)
    · intro q hq
      rw [h2] at hq
      exact absurd hq (List.not_mem_nil q)
    · intro g hg
      rw [h3] at hg
      rw [h1]
      exact hgn g hg

lemma tagInv_init (sess : List Nat) (df : Bool) (dg : Option Nat) :
    tagInv (initState sess df dg) := by
  refine ⟨?_, ?_, ?_, ?_, ?_⟩ <;>
    simp [initState, pendingTags, grantTags]

lemma genInv_init (sess : List Nat) (df : Bool) (dg : Option Nat) :
    genInv (initState sess df dg) := by
  constructor
  · intro i
    simp [initState, genSeqL]
  · intro e he
    simp [initState] at he

lemma tagInv_run (s : MasterState) (ops : List Op) (hi : tagInv s) :
    tagInv (run s ops) := by
  induction ops generalizing s with
  | nil => exact hi
  | cons op rest ih =>
    exact ih (step s op) (tagInv_preserved s _ (stepShape_step s op).2 hi)

lemma genInv_run (s : MasterState) (ops : List Op) (hi : genInv s) :
    genInv (run s ops) := by
  induction ops generalizing s with
  | nil => exact hi
  | cons op rest ih =>
    exact ih (step s op) (genInv_preserved s _ (stepShape_step s op).1 hi)



/-- A locked handle's release reduces to processing the pending queue of
the holder-removal state. -/
lemma releaseLockCore_locked (p : Bool) (s : MasterState) (hid : Nat) (h : HandleData)
    (hl : h.locked = true) :
    releaseLockCore p s hid h = processPendingQueue p (releaseHolder s hid) := by
  unfold releaseLockCore
  rw [if_pos hl]

/-- When the drain dequeues at least one live request, a failing `Fsetxattr`
in the queue-processing tail of `Master::ReleaseLock` (source lines
1202–1207) reaches `exit(1)`. -/
lemma processPendingQueue_persist_failure (s : MasterState)
    (hd : (drainPending (fun x => (lookupHandle s.handleMap x).isSome)
      s.node.pendingLockRequests).2.1 ≠ []) :
    (processPendingQueue false s).2 = true := by
  have hp : s.node.pendingLockRequests ≠ [] := by
    intro hnil
    apply hd
    rw [hnil]
    rfl
  unfold processPendingQueue
  rw [if_neg hp]
  dsimp only
  rw [if_neg hd, if_neg (by simp)]

/-- A release whose drain grants at least one live request answers
`processAbort` (i.e. `exit(1)`) when persisting `lock.generation` fails. -/
lemma releaseOp_persist_failure (s : MasterState) (sid hid : Nat) (h : HandleData)
    (hs : sid ∈ s.sessions)
    (hh : lookupHandle s.handleMap hid = some h)
    (hl : h.locked = true)
    (hd : (drainPending
        (fun x => (lookupHandle (releaseHolder s hid).handleMap x).isSome)
        (releaseHolder s hid).node.pendingLockRequests).2.1 ≠ []) :
    (releaseOp false s sid hid).2 = .processAbort := by
  unfold releaseOp
  rw [if_pos hs, hh]
  dsimp only
  rw [releaseLockCore_locked false s hid h hl]
  rw [if_pos (processPendingQueue_persist_failure (releaseHolder s hid) hd)]

/-- C5: every successful grant occasion — a direct grant in `Master::Lock`
or one queue-drain batch in `Master::ReleaseLock` — increments the node's
`lockGeneration` by exactly one and persists it (`GenShape`, second
disjunct); hence for each node incarnation the sequence of generations
observed by successful grants is strictly increasing; and when persisting
`lock.generation` fails, the handler aborts the process (`processAbort`,
i.e. `exit(1)`) instead of returning an error, at both persist sites: the
direct-grant path of `Master::Lock` (source lines 1074–1079) and the
queue-drain path of `Master::ReleaseLock` (source lines 1202–1207, stated
both for the drain tail `processPendingQueue` and for the full `Release`
handler). -/
theorem c5_generation_monotonic :
    (∀ (s : MasterState) (op : Op), GenShape s (step s op)) ∧
    (∀ (sessions : List Nat) (df : Bool) (dg : Option Nat) (ops : List Op) (i : Nat),
      List.Sorted (· < ·) (genSeqL (run (initState sessions df dg) ops).genLog i)) ∧
    (∀ (s : MasterState) (sid hid mode : Nat) (t : Bool) (h : HandleData),
      sid ∈ s.sessions → lookupHandle s.handleMap hid = some h →
      h.openFlags &&& OPEN_FLAG_LOCK ≠ 0 → h.openFlags &&& OPEN_FLAG_WRITE ≠ 0 →
      s.node.currentLockMode = 0 →
      lockOp false s sid hid mode t = (s, .processAbort)) ∧
    (∀ s : MasterState,
      (drainPending (fun x => (lookupHandle s.handleMap x).isSome)
        s.node.pendingLockRequests).2.1 ≠ [] →
      (processPendingQueue false s).2 = true) ∧
    (∀ (s : MasterState) (sid hid : Nat) (h : HandleData),
      sid ∈ s.sessions → lookupHandle s.handleMap hid = some h →
      h.locked = true →
      (drainPending
          (fun x => (lookupHandle (releaseHolder s hid).handleMap x).isSome)
          (releaseHolder s hid).node.pendingLockRequests).2.1 ≠ [] →
      (releaseOp false s sid hid).2 = .processAbort) := by
  refine ⟨?_, ?_, ?_, ?_, ?_⟩
  · intro s op
    exact (stepShape_step s op).1
  · intro sess df dg ops i
    exact (genInv_run (initState sess df dg) ops (genInv_init sess df dg)).1 i
  · intro s sid hid mode t h hs hh hl hw h0
    unfold lockOp
    rw [if_pos hs, hh]
    simp only [if_neg hl, if_neg hw]
    rw [if_neg (by rw [h0]; decide), if_neg (by rw [h0]; decide)]
    unfold lockGrant
    rw [if_neg (by simp)]
  · intro s hd
    exact processPendingQueue_persist_failure s hd
  · intro s sid hid h hs hh hl hd
    exact releaseOp_persist_failure s sid hid h hs hh hl hd

/-- Witness for C5: a direct grant attempt whose `Fsetxattr` fails aborts
the process rather than responding; and a release that would grant the
pending shared request of handle 3 (handle 2 held the exclusive lock)
likewise aborts when its `Fsetxattr` fails. -/
theorem c5_generation_monotonic_witness :
    lockOp false (run (initState [1] true (some 1)) [.openNode 1 6 0]) 1 2 1 false
      = (run (initState [1] true (some 1)) [.openNode 1 6 0], .processAbort) ∧
    (releaseOp false (run (initState [1] true (some 1))
        [.openNode 1 6 0, .openNode 1 6 0, .lock 1 2 2 false, .lock 1 3 1 false])
      1 2).2 = .processAbort := by
  constructor
  · exact c5_generation_monotonic.2.2.1
      (run (initState [1] true (some 1)) [.openNode 1 6 0])
      1 2 1 false { id := 2, openFlags := 6, eventMask := 0, locked := false }
      (by decide) (by decide) (by decide) (by decide) (by decide)
  · exact c5_generation_monotonic.2.2.2.2
      (run (initState [1] true (some 1))
        [.openNode 1 6 0, .openNode 1 6 0, .lock 1 2 2 false, .lock 1 3 1 false])
      1 2 { id := 2, openFlags := 6, eventMask := 0, locked := true }
      (by decide) (by decide) (by decide) (by decide)

/-- C4 (amended): the pending queue is processed in strict FIFO order with
one qualification the source forces — a dequeued request whose handle has
been removed from the handle table is discarded, not granted.  (i) A drain
removes exactly the head when it is exclusive, and the maximal contiguous
run of shared requests otherwise, granting those whose handles are live, in
queue order.  (ii) Every request changes the queue only by appending at the
back or removing a front prefix (`TagShape`).  (iii) Consequently the ghost
tags of queue grants over any request sequence are strictly increasing, so
if request A is enqueued before request B on the node and both are
eventually granted, A is granted no later than B. -/
theorem c4_fifo_amended :
    (∀ (live : Nat → Bool) (r : LockRequest) (rest : List LockRequest),
      (r.mode = LOCK_MODE_EXCLUSIVE →
        drainPending live (r :: rest)
          = (LOCK_MODE_EXCLUSIVE, if live r.handle then [r] else [], rest)) ∧
      (r.mode ≠ LOCK_MODE_EXCLUSIVE →
        drainPending live (r :: rest)
          = (LOCK_MODE_SHARED,
             ((r :: rest).takeWhile fun q => q.mode == LOCK_MODE_SHARED).filter
               fun q => live q.handle,
             (r :: rest).dropWhile fun q => q.mode == LOCK_MODE_SHARED))) ∧
    (∀ (s : MasterState) (op : Op), TagShape s (step s op)) ∧
    (∀ (sessions : List Nat) (df : Bool) (dg : Option Nat) (ops : List Op),
      List.Sorted (· < ·) (grantTags (run (initState sessions df dg) ops))) ∧
    (∀ (sessions : List Nat) (df : Bool) (dg : Option Nat) (ops : List Op)
       (i j : Fin (grantTags (run (initState sessions df dg) ops)).length),
      (grantTags (run (initState sessions df dg) ops)).get i
          < (grantTags (run (initState sessions df dg) ops)).get j → i < j) := by
  refine ⟨?_, ?_, ?_, ?_⟩
  · intro live r rest
    constructor
    · intro hm
      rw [drainPending_cons, if_pos hm]
    · intro hm
      rw [drainPending_cons, if_neg hm]
  · intro s op
    exact (stepShape_step s op).2
  · intro sess df dg ops
    exact (tagInv_run (initState sess df dg) ops (tagInv_init sess df dg)).2.1
  · intro sess df dg ops i j hlt
    have hsorted := (tagInv_run (initState sess df dg) ops (tagInv_init sess df dg)).2.1
    exact (List.Sorted.get_strictMono hsorted).lt_iff_lt.mp hlt

/-- Witness for C4 (amended): an exclusive head with a live handle is
dequeued alone and granted. -/
theorem c4_fifo_amended_witness :
    drainPending (fun _ => true) [{ handle := 7, mode := 2, tag := 0 }]
      = (LOCK_MODE_EXCLUSIVE, [{ handle := 7, mode := 2, tag := 0 }], []) := by
  have h := (c4_fifo_amended.1 (fun _ => true)
    { handle := 7, mode := 2, tag := 0 } []).1 (by decide)
  simpa using h


end Hyperspace
